import Mathlib

/-!
Shallow embedding of the BxDF evaluation and sampling engine of
`src/pbrt/bxdfs.h` (pbrt-v4 fork), with machine floats modelled as exact
rationals.  External collaborators that live outside `src/` (Fresnel
functions, microfacet distributions, samplers, the RNG stream, transcendental
math routines) are passed as explicit parameters, exactly as the spec lists
them as consumed contracts; small pure helpers whose formulas the spec fixes
(Lerp, SameHemisphere, Reflect, the cosine-hemisphere density, the power
heuristic) are modelled from the spec's words and marked as such.
-/

namespace PbrtBxdfs

/-- Direction vector in the local shading frame, with rational components. -/
structure Vec3 where
  x : ℚ
  y : ℚ
  z : ℚ
deriving DecidableEq

namespace Vec3

/-- Componentwise addition of vectors. -/
def add (a b : Vec3) : Vec3 := ⟨a.x + b.x, a.y + b.y, a.z + b.z⟩

/-- Componentwise negation of a vector. -/
def negV (a : Vec3) : Vec3 := ⟨-a.x, -a.y, -a.z⟩

/-- Componentwise subtraction of vectors. -/
def sub (a b : Vec3) : Vec3 := ⟨a.x - b.x, a.y - b.y, a.z - b.z⟩

/-- Scaling of a vector by a rational. -/
def scale (a : Vec3) (k : ℚ) : Vec3 := ⟨k * a.x, k * a.y, k * a.z⟩

instance : Add Vec3 := ⟨add⟩

instance : Neg Vec3 := ⟨negV⟩

instance : Sub Vec3 := ⟨sub⟩

@[simp] theorem add_x (a b : Vec3) : (a + b).x = a.x + b.x := rfl

@[simp] theorem add_y (a b : Vec3) : (a + b).y = a.y + b.y := rfl

@[simp] theorem add_z (a b : Vec3) : (a + b).z = a.z + b.z := rfl

@[simp] theorem neg_x (a : Vec3) : (-a).x = -a.x := rfl

@[simp] theorem neg_y (a : Vec3) : (-a).y = -a.y := rfl

@[simp] theorem neg_z (a : Vec3) : (-a).z = -a.z := rfl

@[simp] theorem sub_x (a b : Vec3) : (a - b).x = a.x - b.x := rfl

@[simp] theorem sub_y (a b : Vec3) : (a - b).y = a.y - b.y := rfl

@[simp] theorem sub_z (a b : Vec3) : (a - b).z = a.z - b.z := rfl

@[simp] theorem scale_x (a : Vec3) (k : ℚ) : (a.scale k).x = k * a.x := rfl

@[simp] theorem scale_y (a : Vec3) (k : ℚ) : (a.scale k).y = k * a.y := rfl

@[simp] theorem scale_z (a : Vec3) (k : ℚ) : (a.scale k).z = k * a.z := rfl

end Vec3

/-- Euclidean inner product of two vectors. -/
def dot (a b : Vec3) : ℚ := a.x * b.x + a.y * b.y + a.z * b.z

/-- Cross product of two vectors. -/
def cross (a b : Vec3) : Vec3 :=
  ⟨a.y * b.z - a.z * b.y, a.z * b.x - a.x * b.z, a.x * b.y - a.y * b.x⟩

/-- Spectral value with four wavelength samples, modelling SampledSpectrum. -/
structure S4 where
  c0 : ℚ
  c1 : ℚ
  c2 : ℚ
  c3 : ℚ
deriving DecidableEq

namespace S4

/-- Constant spectrum, modelling the SampledSpectrum scalar constructor. -/
def const (k : ℚ) : S4 := ⟨k, k, k, k⟩

/-- Componentwise sum of spectra. -/
def add (a b : S4) : S4 := ⟨a.c0 + b.c0, a.c1 + b.c1, a.c2 + b.c2, a.c3 + b.c3⟩

/-- Componentwise product of spectra. -/
def mul (a b : S4) : S4 := ⟨a.c0 * b.c0, a.c1 * b.c1, a.c2 * b.c2, a.c3 * b.c3⟩

/-- Scaling of a spectrum by a rational. -/
def scale (a : S4) (k : ℚ) : S4 := ⟨k * a.c0, k * a.c1, k * a.c2, k * a.c3⟩

/-- Componentwise division of a spectrum by a rational. -/
def divScalar (a : S4) (k : ℚ) : S4 := ⟨a.c0 / k, a.c1 / k, a.c2 / k, a.c3 / k⟩

instance : Add S4 := ⟨add⟩

instance : Mul S4 := ⟨mul⟩

/-- Largest component, modelling SampledSpectrum MaxComponentValue. -/
def maxComponent (a : S4) : ℚ := max (max (max a.c0 a.c1) a.c2) a.c3

/-- True when every component is zero; the C++ boolean conversion of a
spectrum is the negation of this. -/
def isZero (a : S4) : Prop := a = const 0

instance (a : S4) : Decidable a.isZero := by
  unfold isZero
  infer_instance

@[simp] theorem add_c0 (a b : S4) : (a + b).c0 = a.c0 + b.c0 := rfl

@[simp] theorem add_c1 (a b : S4) : (a + b).c1 = a.c1 + b.c1 := rfl

@[simp] theorem add_c2 (a b : S4) : (a + b).c2 = a.c2 + b.c2 := rfl

@[simp] theorem add_c3 (a b : S4) : (a + b).c3 = a.c3 + b.c3 := rfl

@[simp] theorem mul_c0 (a b : S4) : (a * b).c0 = a.c0 * b.c0 := rfl

@[simp] theorem mul_c1 (a b : S4) : (a * b).c1 = a.c1 * b.c1 := rfl

@[simp] theorem mul_c2 (a b : S4) : (a * b).c2 = a.c2 * b.c2 := rfl

@[simp] theorem mul_c3 (a b : S4) : (a * b).c3 = a.c3 * b.c3 := rfl

@[simp] theorem scale_c0 (a : S4) (k : ℚ) : (a.scale k).c0 = k * a.c0 := rfl

@[simp] theorem scale_c1 (a : S4) (k : ℚ) : (a.scale k).c1 = k * a.c1 := rfl

@[simp] theorem scale_c2 (a : S4) (k : ℚ) : (a.scale k).c2 = k * a.c2 := rfl

@[simp] theorem scale_c3 (a : S4) (k : ℚ) : (a.scale k).c3 = k * a.c3 := rfl

@[simp] theorem divScalar_c0 (a : S4) (k : ℚ) : (a.divScalar k).c0 = a.c0 / k := rfl

@[simp] theorem divScalar_c1 (a : S4) (k : ℚ) : (a.divScalar k).c1 = a.c1 / k := rfl

@[simp] theorem divScalar_c2 (a : S4) (k : ℚ) : (a.divScalar k).c2 = a.c2 / k := rfl

@[simp] theorem divScalar_c3 (a : S4) (k : ℚ) : (a.divScalar k).c3 = a.c3 / k := rfl

end S4

/-- Transport mode: Radiance or Importance, flipped by adjoint sampling. -/
inductive TransportMode where
  | Radiance : TransportMode
  | Importance : TransportMode
deriving DecidableEq

/-- Negation of a transport mode, modelling the C++ operator on the enum. -/
def TransportMode.flip : TransportMode → TransportMode
  | .Radiance => .Importance
  | .Importance => .Radiance

/-- Request restriction over the two transport kinds, modelling
BxDFReflTransFlags. -/
structure RTFlags where
  refl : Bool
  trans : Bool
deriving DecidableEq

/-- The unrestricted request, modelling BxDFReflTransFlags All. -/
def RTFlags.all : RTFlags := ⟨true, true⟩

/-- Reflection-only request. -/
def RTFlags.reflOnly : RTFlags := ⟨true, false⟩

/-- Transmission-only request. -/
def RTFlags.transOnly : RTFlags := ⟨false, true⟩

/-- Lobe flags over transport kind and roughness class, modelling BxDFFlags. -/
structure BxDFFlags where
  refl : Bool
  trans : Bool
  diffuse : Bool
  glossy : Bool
  specular : Bool
deriving DecidableEq

namespace BxDFFlags

/-- The empty Unset flag value. -/
def unset : BxDFFlags := ⟨false, false, false, false, false⟩

/-- DiffuseReflection flag value. -/
def diffuseReflection : BxDFFlags := ⟨true, false, true, false, false⟩

/-- DiffuseTransmission flag value. -/
def diffuseTransmission : BxDFFlags := ⟨false, true, true, false, false⟩

/-- GlossyReflection flag value. -/
def glossyReflection : BxDFFlags := ⟨true, false, false, true, false⟩

/-- SpecularReflection flag value. -/
def specularReflection : BxDFFlags := ⟨true, false, false, false, true⟩

/-- SpecularTransmission flag value. -/
def specularTransmission : BxDFFlags := ⟨false, true, false, false, true⟩

/-- IsSpecular query: the Specular bit is set. -/
def isSpecular (f : BxDFFlags) : Bool := f.specular

/-- IsNonSpecular query: the Diffuse or the Glossy bit is set. -/
def isNonSpecular (f : BxDFFlags) : Bool := f.diffuse || f.glossy

end BxDFFlags

/-- A Sample_f result, modelling BSDFSample with its value, direction,
density, flags, relative index of refraction and proportional-density mark. -/
structure BSDFSample where
  f : S4
  wi : Vec3
  pdf : ℚ
  flags : BxDFFlags
  eta : ℚ
  pdfIsProportional : Bool
deriving DecidableEq

/-- IsReflection query on a sample: its flags carry the Reflection bit. -/
def BSDFSample.IsReflection (s : BSDFSample) : Bool := s.flags.refl

/-- IsTransmission query on a sample: its flags carry the Transmission bit. -/
def BSDFSample.IsTransmission (s : BSDFSample) : Bool := s.flags.trans

/-- IsSpecular query on a sample: its flags carry the Specular bit. -/
def BSDFSample.IsSpecular (s : BSDFSample) : Bool := s.flags.specular

/-- The default-constructed BSDFSample: zero value, zero direction, zero
density, Unset flags, unit relative index of refraction. -/
def BSDFSample.zero : BSDFSample :=
  ⟨S4.const 0, ⟨0, 0, 0⟩, 0, BxDFFlags.unset, 1, false⟩

/-- The Pi constant of the renderer's math header, an exact decimal. -/
def pbrtPi : ℚ := 3.14159265358979323846

/-- The InvPi constant of the renderer's math header, an exact decimal. -/
def invPi : ℚ := 0.31830988618379067154

/-- Square helper, modelling Sqr. -/
def sqr (x : ℚ) : ℚ := x * x

/-- Modelled from the spec: the Lerp collaborator between two floats, the
blend `(1-t)*a + t*b` (the spec's 90/10 blend wording fixes this shape). -/
def lerp (t a b : ℚ) : ℚ := (1 - t) * a + t * b

/-- Modelled from the spec: Lerp between two spectrum values, componentwise. -/
def lerpS (t : ℚ) (a b : S4) : S4 := a.scale (1 - t) + b.scale t

/-- Modelled from the spec: the Clamp collaborator, restricting a value to an
interval. -/
def clampQ (v lo hi : ℚ) : ℚ := if v < lo then lo else if hi < v then hi else v

/-- Modelled from the spec: two directions lie in the same hemisphere exactly
when their z components have the same strict sign. -/
def sameHemisphere (a b : Vec3) : Prop := 0 < a.z * b.z

instance (a b : Vec3) : Decidable (sameHemisphere a b) := by
  unfold sameHemisphere
  infer_instance

/-- Cosine of the polar angle of a direction: its z component. -/
def cosTheta (w : Vec3) : ℚ := w.z

/-- Absolute cosine of the polar angle of a direction. -/
def absCosTheta (w : Vec3) : ℚ := |w.z|

/-- Absolute value of the inner product, modelling AbsDot. -/
def absDot (a b : Vec3) : ℚ := |dot a b|

/-- Modelled from the spec: mirror reflection of `wo` about the normal `n`,
`-wo + 2 (wo . n) n`. -/
def reflect (wo n : Vec3) : Vec3 := n.scale (2 * dot wo n) - wo

/-- Modelled from the spec: FaceForward flips a vector so that it lies on the
same side as the given normal. -/
def faceForward (v n : Vec3) : Vec3 := if dot v n < 0 then -v else v

/-- Normalize a vector; the square root of the squared length is taken by the
external collaborator `sq` passed in by each caller. -/
def normalize (sq : ℚ → ℚ) (v : Vec3) : Vec3 := v.scale (1 / sq (dot v v))

/-- Modelled from the spec: the power heuristic MIS weight with exponent two,
`(nf f)^2 / ((nf f)^2 + (ng g)^2)`. -/
def powerHeuristic (nf fPdf ng gPdf : ℚ) : ℚ :=
  sqr (nf * fPdf) / (sqr (nf * fPdf) + sqr (ng * gPdf))

/-- Modelled from the spec: the cosine-weighted hemisphere density
`cos(theta) / pi` used by the diffuse-style lobes. -/
def cosineHemispherePDF (c : ℚ) : ℚ := c * invPi

/-- The smallest positive normalized machine float, used by the layered
transmittance helper's degeneracy test. -/
def floatMin : ℚ := 1 / 2 ^ 126

/-! ## DiffuseBxDF

Embedding of DiffuseBxDF (bxdfs.h lines 361-413).  The external
cosine-hemisphere sampler is a parameter `cosSampler`. -/

/-- DiffuseBxDF f: `R / pi` when the two directions share a hemisphere,
zero otherwise (bxdfs.h lines 369-373). -/
def diffuseF (R : S4) (wo wi : Vec3) (_mode : TransportMode) : S4 :=
  if ¬ sameHemisphere wo wi then S4.const 0 else R.scale invPi

/-- DiffuseBxDF Sample_f: rejects a request without the Reflection bit, then
cosine-samples the hemisphere of `wo` (bxdfs.h lines 376-388). -/
def diffuseSampleF (R : S4) (cosSampler : ℚ × ℚ → Vec3) (wo : Vec3) (_uc : ℚ)
    (u : ℚ × ℚ) (_mode : TransportMode) (flags : RTFlags) : Option BSDFSample :=
  if !flags.refl then none
  else
    let wi0 := cosSampler u
    let wi := if wo.z < 0 then { wi0 with z := -wi0.z } else wi0
    let pdf := cosineHemispherePDF (absCosTheta wi)
    some ⟨R.scale invPi, wi, pdf, BxDFFlags.diffuseReflection, 1, false⟩

/-- DiffuseBxDF PDF: the cosine density when reflection is requested and the
directions share a hemisphere, zero otherwise (bxdfs.h lines 391-396). -/
def diffusePDF (_R : S4) (wo wi : Vec3) (_mode : TransportMode)
    (flags : RTFlags) : ℚ :=
  if !flags.refl ∨ ¬ sameHemisphere wo wi then 0
  else cosineHemispherePDF (absCosTheta wi)

/-! ## ConductorBxDF

Embedding of ConductorBxDF (bxdfs.h lines 611-712).  The microfacet
distribution is the collaborator contract of spec section 4.2, a record of
its D, G, Sample_wm, PDF and EffectivelySmooth operations; the complex
Fresnel function with the conductor's fixed eta and k is the collaborator
`frC`, a function of the cosine argument; `sq` is the external square root
used by Normalize. -/

/-- Microfacet distribution collaborator contract (spec section 4.2). -/
structure MFDist where
  d : Vec3 → ℚ
  g : Vec3 → Vec3 → ℚ
  sample_wm : Vec3 → ℚ × ℚ → Vec3
  pdf : Vec3 → Vec3 → ℚ
  effectivelySmooth : Bool

/-- ConductorBxDF f (bxdfs.h lines 662-681): zero for opposite hemispheres or
an effectively smooth distribution, else the microfacet product
`D F G / (4 cos cos)` with the half vector normalized from `wi + wo`. -/
def conductorF (mf : MFDist) (frC : ℚ → S4) (sq : ℚ → ℚ) (wo wi : Vec3)
    (_mode : TransportMode) : S4 :=
  if ¬ sameHemisphere wo wi then S4.const 0
  else if mf.effectivelySmooth then S4.const 0
  else
    let cosThetaO := absCosTheta wo
    let cosThetaI := absCosTheta wi
    if cosThetaI = 0 ∨ cosThetaO = 0 then S4.const 0
    else
      let wm0 := wi + wo
      if dot wm0 wm0 = 0 then S4.const 0
      else
        let wm := normalize sq wm0
        let F := frC (absDot wo wm)
        (F.scale (mf.d wm * mf.g wo wi)).scale (1 / (4 * cosThetaI * cosThetaO))

/-- ConductorBxDF Sample_f (bxdfs.h lines 627-659): perfect mirror when the
distribution is effectively smooth, else visible-normal sampling of a
microfacet normal followed by reflection, with the usual rejections. -/
def conductorSampleF (mf : MFDist) (frC : ℚ → S4) (wo : Vec3) (_uc : ℚ)
    (u : ℚ × ℚ) (_mode : TransportMode) (flags : RTFlags) : Option BSDFSample :=
  if !flags.refl then none
  else if mf.effectivelySmooth then
    let wi : Vec3 := ⟨-wo.x, -wo.y, wo.z⟩
    let fv := (frC (absCosTheta wi)).scale (1 / absCosTheta wi)
    some ⟨fv, wi, 1, BxDFFlags.specularReflection, 1, false⟩
  else if wo.z = 0 then none
  else
    let wm := mf.sample_wm wo u
    let wi := reflect wo wm
    if ¬ sameHemisphere wo wi then none
    else
      let pdf := mf.pdf wo wm / (4 * absDot wo wm)
      let cosThetaO := absCosTheta wo
      let cosThetaI := absCosTheta wi
      if cosThetaI = 0 ∨ cosThetaO = 0 then none
      else
        let F := frC (absDot wo wm)
        let fv := (F.scale (mf.d wm * mf.g wo wi)).scale
          (1 / (4 * cosThetaI * cosThetaO))
        some ⟨fv, wi, pdf, BxDFFlags.glossyReflection, 1, false⟩

/-- ConductorBxDF PDF (bxdfs.h lines 684-699): zero without a reflection request,
hemisphere mismatch or smooth distribution, else the visible-normal density
of the faced-forward normalized half vector over the reflection Jacobian. -/
def conductorPDF (mf : MFDist) (sq : ℚ → ℚ) (wo wi : Vec3)
    (_mode : TransportMode) (flags : RTFlags) : ℚ :=
  if !flags.refl then 0
  else if ¬ sameHemisphere wo wi then 0
  else if mf.effectivelySmooth then 0
  else
    let wm0 := wo + wi
    if dot wm0 wm0 = 0 then 0
    else
      let wm := faceForward (normalize sq wm0) ⟨0, 0, 1⟩
      mf.pdf wo wm / (4 * absDot wo wm)

/-! ## ThinDielectricBxDF

Embedding of ThinDielectricBxDF (bxdfs.h lines 540-608).  The real dielectric
Fresnel function is the collaborator `frD`. -/

/-- The reflectance and transmittance pair computed at the head of
ThinDielectricBxDF Sample_f (bxdfs.h lines 556-561): the base Fresnel
reflectance, adjusted for scattering between the interfaces when below one. -/
def thinRT (eta : ℚ) (frD : ℚ → ℚ → ℚ) (wo : Vec3) : ℚ × ℚ :=
  let R := frD (absCosTheta wo) eta
  let T := 1 - R
  if R < 1 then
    let R2 := R + sqr T * R / (1 - sqr R)
    (R2, 1 - R2)
  else (R, T)

/-- ThinDielectricBxDF f: identically zero, a purely specular lobe
(bxdfs.h lines 548-550). -/
def thinF (_eta : ℚ) (_wo _wi : Vec3) (_mode : TransportMode) : S4 := S4.const 0

/-- ThinDielectricBxDF Sample_f (bxdfs.h lines 553-584): choose the specular
reflection or the specular transmission branch by the adjusted Fresnel
probabilities restricted to the requested kinds. -/
def thinSampleF (eta : ℚ) (frD : ℚ → ℚ → ℚ) (wo : Vec3) (uc : ℚ)
    (_u : ℚ × ℚ) (_mode : TransportMode) (flags : RTFlags) : Option BSDFSample :=
  let RT := thinRT eta frD wo
  let pr := if flags.refl then RT.1 else 0
  let pt := if flags.trans then RT.2 else 0
  if pr = 0 ∧ pt = 0 then none
  else if uc < pr / (pr + pt) then
    let wi : Vec3 := ⟨-wo.x, -wo.y, wo.z⟩
    some ⟨S4.const (RT.1 / absCosTheta wi), wi, pr / (pr + pt),
      BxDFFlags.specularReflection, 1, false⟩
  else
    let wi : Vec3 := -wo
    some ⟨S4.const (RT.2 / absCosTheta wi), wi, pt / (pr + pt),
      BxDFFlags.specularTransmission, 1, false⟩

/-- ThinDielectricBxDF PDF: identically zero (bxdfs.h lines 587-590). -/
def thinPDF (_eta : ℚ) (_wo _wi : Vec3) (_mode : TransportMode)
    (_flags : RTFlags) : ℚ := 0

/-! ## NormalizedFresnelBxDF

Embedding of NormalizedFresnelBxDF (bxdfs.h lines 1404-1463).  The dielectric
Fresnel function `frD` and the first Fresnel moment `fm1` are external
collaborators, as is the cosine-hemisphere sampler. -/

/-- NormalizedFresnelBxDF f (bxdfs.h lines 1447-1459): the normalized
`(1 - Fr(cos(theta_i), eta)) / (c pi)` factor with
`c = 1 - 2 FresnelMoment1(1/eta)`, multiplied by `eta^2` when the transport
mode is Radiance. -/
def nfF (eta : ℚ) (frD : ℚ → ℚ → ℚ) (fm1 : ℚ → ℚ) (wo wi : Vec3)
    (mode : TransportMode) : S4 :=
  if ¬ sameHemisphere wo wi then S4.const 0
  else
    let c := 1 - 2 * fm1 (1 / eta)
    let f0 := S4.const ((1 - frD (cosTheta wi) eta) / (c * pbrtPi))
    if mode = TransportMode.Radiance then f0.scale (sqr eta) else f0

/-- NormalizedFresnelBxDF PDF (bxdfs.h lines 1426-1431): the cosine density
when reflection is requested and the hemispheres match, zero otherwise. -/
def nfPDF (_eta : ℚ) (wo wi : Vec3) (_mode : TransportMode)
    (flags : RTFlags) : ℚ :=
  if !flags.refl then 0
  else if sameHemisphere wo wi then absCosTheta wi * invPi else 0

/-- NormalizedFresnelBxDF Sample_f (bxdfs.h lines 1412-1423).  Its return type
in the source is a plain BSDFSample, not an optional one: a request without
the Reflection bit yields the default-constructed (all-zero) sample. -/
def nfSampleF (eta : ℚ) (frD : ℚ → ℚ → ℚ) (fm1 : ℚ → ℚ)
    (cosSampler : ℚ × ℚ → Vec3) (wo : Vec3) (_uc : ℚ) (u : ℚ × ℚ)
    (mode : TransportMode) (flags : RTFlags) : BSDFSample :=
  if !flags.refl then BSDFSample.zero
  else
    let wi0 := cosSampler u
    let wi := if wo.z < 0 then { wi0 with z := -wi0.z } else wi0
    ⟨nfF eta frD fm1 wo wi mode, wi, nfPDF eta wo wi mode flags,
      BxDFFlags.diffuseReflection, 1, false⟩

/-- The BxDF facade dispatch of NormalizedFresnelBxDF Sample_f (bxdfs.h lines
1470-1477): the plain BSDFSample converts implicitly to an engaged optional,
so the facade always reports a present sample for this variant. -/
def nfSampleFOpt (eta : ℚ) (frD : ℚ → ℚ → ℚ) (fm1 : ℚ → ℚ)
    (cosSampler : ℚ × ℚ → Vec3) (wo : Vec3) (uc : ℚ) (u : ℚ × ℚ)
    (mode : TransportMode) (flags : RTFlags) : Option BSDFSample :=
  some (nfSampleF eta frD fm1 cosSampler wo uc u mode flags)

/-! ## DisneyBxDF

Embedding of DisneyBxDF (bxdfs.h lines 31-358).  The constructor fixes
`specularTint = 0`, `anisotropic = 0`, `transmission = 0` and
`twoSided = true`, so those are inlined; all the transcendental math routines
the lobe calls (square root, reciprocal square root, cosine, sine, natural
logarithm, power, the tangent of the polar angle, the dielectric Fresnel
function, and the cosine-hemisphere sampler) are collaborator functions
bundled in a `MathOracle`. -/

/-- External transcendental math collaborators consumed by DisneyBxDF. -/
structure MathOracle where
  sqrtF : ℚ → ℚ
  invSqrtF : ℚ → ℚ
  cosF : ℚ → ℚ
  sinF : ℚ → ℚ
  logF : ℚ → ℚ
  powF : ℚ → ℚ → ℚ
  tanTheta : Vec3 → ℚ
  frDielectric : ℚ → ℚ → ℚ
  sampleCosineHemisphere : ℚ × ℚ → Vec3

/-- The material parameters of DisneyBxDF (its constructor arguments). -/
structure DisneyParams where
  color : S4
  eta : ℚ
  roughness : ℚ
  specular : ℚ
  clearcoat : ℚ
  metallic : ℚ
  subsurface : ℚ
  sheen : ℚ
  sheenTint : ℚ
  clearcoatGloss : ℚ
  Lum : ℚ
  isSpecular : Bool

/-- DisneyBxDF SchlickFresnel (bxdfs.h lines 67-71). -/
def schlickFresnel (u : ℚ) : ℚ :=
  let m := clampQ (1 - u) 0 1
  let m2 := m * m
  m2 * m2 * m

/-- DisneyBxDF GTR1 normal distribution (bxdfs.h lines 74-80). -/
def gtr1 (O : MathOracle) (cosT a : ℚ) : ℚ :=
  if 1 ≤ a then invPi
  else
    let a2 := a * a
    let t := 1 + (a2 - 1) * cosT * cosT
    (a2 - 1) / (pbrtPi * O.logF a2 * t)

/-- DisneyBxDF GTR2 normal distribution (bxdfs.h lines 83-87). -/
def gtr2 (cosT a : ℚ) : ℚ :=
  let a2 := a * a
  let t := 1 + (a2 - 1) * cosT * cosT
  a2 / (pbrtPi * t * t)

/-- DisneyBxDF SmithGGXVN shadowing term (bxdfs.h lines 90-96). -/
def smithGGXVN (O : MathOracle) (w : Vec3) (a : ℚ) : ℚ :=
  let a2 := a * a
  let th := O.tanTheta w
  let th2 := th * th
  let root := O.sqrtF (1 + a2 * th2)
  2 / (1 + root)

/-- DisneyBxDF SchlickF0FromEta (bxdfs.h line 99). -/
def schlickF0FromEta (eta : ℚ) : ℚ := sqr (eta - 1) / sqr (eta + 1)

/-- DisneyBxDF Sample_wm, the GGX visible-normal sampler
(bxdfs.h lines 102-125). -/
def disneySampleWm (O : MathOracle) (roughness : ℚ) (w : Vec3)
    (u : ℚ × ℚ) : Vec3 :=
  let ax := roughness
  let ay := roughness
  let Vh := normalize O.sqrtF ⟨ax * w.x, ay * w.y, w.z⟩
  let lensq := Vh.x * Vh.x + Vh.y * Vh.y
  let T1 := if 0 < lensq then (Vec3.mk (-Vh.y) Vh.x 0).scale (O.invSqrtF lensq)
            else ⟨1, 0, 0⟩
  let T2 := cross Vh T1
  let r0 := O.sqrtF u.1
  let phi := 2 * pbrtPi * u.2
  let t1 := r0 * O.cosF phi
  let t2 := r0 * O.sinF phi
  let s := 0.5 * (1 + Vh.z)
  let t2a := (1 - s) * O.sqrtF (1 - t1 * t1) + s * t2
  let Nh := T1.scale t1 + T2.scale t2a +
    Vh.scale (O.sqrtF (max 0 (1 - t1 * t1 - t2a * t2a)))
  normalize O.sqrtF ⟨ax * Nh.x, ay * Nh.y, max 0 Nh.z⟩

/-- DisneyBxDF SampleCoating, the GTR1 half-vector sampler followed by
reflection (bxdfs.h lines 128-142). -/
def sampleCoating (O : MathOracle) (clearcoatGloss : ℚ) (wo : Vec3)
    (u : ℚ × ℚ) : Vec3 :=
  let gloss := lerp clearcoatGloss 0.1 0.001
  let alpha2 := gloss * gloss
  let cosT := O.sqrtF (max 0.0001 ((1 - O.powF alpha2 (1 - u.1)) / (1 - alpha2)))
  let sinT := O.sqrtF (max 0.0001 (1 - cosT * cosT))
  let phi := 2 * pbrtPi * u.2
  let wh0 : Vec3 := ⟨sinT * O.cosF phi, sinT * O.sinF phi, cosT⟩
  let wh := if cosTheta wo * cosTheta wh0 ≤ 0 then -wh0 else wh0
  normalize O.sqrtF (wh.scale (2 * dot wh wo) - wo)

/-- DisneyBxDF ComputeWeights (bxdfs.h lines 145-158): the specular, diffuse
and clear-coat shares, normalized by their sum. -/
def computeWeights (metallic clearcoat : ℚ) : ℚ × ℚ × ℚ :=
  let m := metallic
  let d := 1 - metallic
  let dw := d
  let sw := m + d
  let cw := clearcoat
  let norm := 1 / (sw + dw + cw)
  (sw * norm, dw * norm, cw * norm)

/-- DisneyBxDF DisneyDiffuseF, the retro-reflection diffuse term
(bxdfs.h lines 161-169). -/
def disneyDiffuseF (P : DisneyParams) (wo wi wh : Vec3) : S4 :=
  let rc := max 0.001 P.roughness
  let Fo := schlickFresnel (cosTheta wo)
  let Fi := schlickFresnel (cosTheta wi)
  let c2 := dot wi wh
  let Fd90 := 0.5 + 2 * rc * c2 * c2
  let Fd := lerp Fi 1 Fd90 * lerp Fo 1 Fd90
  P.color.scale (invPi * Fd * (1 - P.metallic))

/-- DisneyBxDF DisneySubsurfaceF, the far-hemisphere subsurface term
(bxdfs.h lines 172-184). -/
def disneySubsurfaceF (P : DisneyParams) (wo wi wh : Vec3) : S4 :=
  let rc := max 0.001 P.roughness
  let cosWo := absCosTheta wo
  let cosWi := absCosTheta wi
  let FL := schlickFresnel cosWi
  let FV := schlickFresnel cosWo
  let c2 := dot wi wh
  let Fss90 := c2 * c2 * rc
  let Fss := lerp FL 1 Fss90 * lerp FV 1 Fss90
  let ss := 1.25 * (Fss * (1 / (cosWi + cosWo) - 0.5) + 0.5)
  P.color.scale (invPi * ss * (1 - P.metallic))

/-- DisneyBxDF BRDF_F, the combined diffuse, sheen, specular and clear-coat
value (bxdfs.h lines 187-234), with the two-sided flip of both directions. -/
def brdfF (P : DisneyParams) (O : MathOracle) (wo0 wi0 : Vec3) : S4 :=
  let p := if wo0.z < 0 then (-wo0, -wi0) else (wo0, wi0)
  let wo := p.1
  let wi := p.2
  let wh := faceForward (normalize O.sqrtF (wi + wo)) ⟨0, 0, 1⟩
  let cosWh := cosTheta wh
  if ¬ sameHemisphere wo wi then
    if 0 < P.subsurface then disneySubsurfaceF P wo wi wh else S4.const 0
  else
    let Ctint := if 0 < P.Lum then P.color.divScalar P.Lum else S4.const 1
    let FH := schlickFresnel (dot wi wh)
    let D := gtr2 cosWh P.roughness
    let FD := O.frDielectric (dot wo wh) P.eta
    let F0 := S4.const FD
    let F1 := if P.isSpecular
              then lerpS FH ((S4.const 1).scale (P.specular * 0.08)) (S4.const 1)
              else F0
    let F := lerpS P.metallic F1 P.color
    let G := smithGGXVN O wo P.roughness * smithGGXVN O wi P.roughness
    let Dc := gtr1 O cosWh (lerp P.clearcoatGloss 0.1 0.001)
    let Fc := lerp FH 0.04 1
    let Gc := smithGGXVN O wo 0.25 * smithGGXVN O wi 0.25
    let J := 1 / (4 * absCosTheta wo * absCosTheta wi)
    let spec := (F.scale (D * G)).scale J
    let diffuse := disneyDiffuseF P wo wi wh
    let coat := Dc * Fc * Gc * J
    let tintF := lerpS P.sheenTint (S4.const 1) Ctint
    let sheenC := tintF.scale (FH * P.sheen)
    diffuse + sheenC + spec + S4.const (P.clearcoat * coat)

/-- The specular-branch density `G1 |wo.wh| D J / cos(theta_o)` appearing in
DisneyBxDF BRDF_PDF (bxdfs.h lines 316-320), as a function of the already
flipped direction pair. -/
def disneyPdfSpecular (P : DisneyParams) (O : MathOracle) (wo wi : Vec3) : ℚ :=
  let wh := faceForward (normalize O.sqrtF (wo + wi)) ⟨0, 0, 1⟩
  let absCosWh := absCosTheta wh
  let G1 := smithGGXVN O wo P.roughness
  let D := gtr2 absCosWh P.roughness
  let J := 1 / (4 * absDot wo wh)
  (G1 * absDot wo wh * D * J) / absCosTheta wo

/-- The diffuse-branch density, the cosine density of the incoming direction
(bxdfs.h line 321). -/
def disneyPdfDiffuse (_P : DisneyParams) (_O : MathOracle)
    (_wo wi : Vec3) : ℚ :=
  cosineHemispherePDF (absCosTheta wi)

/-- The clear-coat-branch density `Dc |cos wh| J` (bxdfs.h lines 323-324). -/
def disneyPdfClearcoat (P : DisneyParams) (O : MathOracle) (wo wi : Vec3) : ℚ :=
  let wh := faceForward (normalize O.sqrtF (wo + wi)) ⟨0, 0, 1⟩
  let absCosWh := absCosTheta wh
  let Dc := gtr1 O absCosWh (lerp P.clearcoatGloss 0.1 0.001)
  let J := 1 / (4 * absDot wo wh)
  (Dc * absCosWh) * J

/-- DisneyBxDF BRDF_PDF (bxdfs.h lines 305-327): the two-sided flip of both
directions followed by the full weighted sum of the three branch densities. -/
def brdfPDF (P : DisneyParams) (O : MathOracle) (wo0 wi0 : Vec3) : ℚ :=
  let p := if wo0.z < 0 then (-wo0, -wi0) else (wo0, wi0)
  let wo := p.1
  let wi := p.2
  let wh := faceForward (normalize O.sqrtF (wo + wi)) ⟨0, 0, 1⟩
  let w := computeWeights P.metallic P.clearcoat
  let absCosWh := absCosTheta wh
  let G1 := smithGGXVN O wo P.roughness
  let D := gtr2 absCosWh P.roughness
  let J := 1 / (4 * absDot wo wh)
  let pdfSpec := (G1 * absDot wo wh * D * J) / absCosTheta wo
  let pdfDiff := cosineHemispherePDF (absCosTheta wi)
  let Dc := gtr1 O absCosWh (lerp P.clearcoatGloss 0.1 0.001)
  let pdfCc := (Dc * absCosWh) * J
  pdfSpec * w.1 + pdfDiff * w.2.1 + pdfCc * w.2.2

/-- DisneyBxDF f, which forwards to BRDF_F (bxdfs.h lines 237-239). -/
def disneyF (P : DisneyParams) (O : MathOracle) (wo wi : Vec3)
    (_mode : TransportMode) : S4 :=
  brdfF P O wo wi

/-- DisneyBxDF PDF, which forwards to BRDF_PDF regardless of the requested
restriction (bxdfs.h lines 330-333). -/
def disneyPDF (P : DisneyParams) (O : MathOracle) (wo wi : Vec3)
    (_mode : TransportMode) (_flags : RTFlags) : ℚ :=
  brdfPDF P O wo wi

/-- DisneyBxDF Sample_f (bxdfs.h lines 242-302): the two-sided flip of `wo`,
the three ordered discrete branches selected by `uc` (specular, coating,
diffuse with an inner subsurface choice on the RNG draw `rv`), the sampled
direction, and a sample carrying BRDF_F and BRDF_PDF at that direction.  The
`sampleFlags` request parameter is accepted but never consulted. -/
def disneySampleF (P : DisneyParams) (O : MathOracle) (wo0 : Vec3) (uc : ℚ)
    (u : ℚ × ℚ) (_mode : TransportMode) (_sampleFlags : RTFlags)
    (rv : ℚ) : Option BSDFSample :=
  let flip := wo0.z < 0
  let wo := if flip then -wo0 else wo0
  let w := computeWeights P.metallic P.clearcoat
  let sr := w.1
  let dr := w.2.1
  let cr := w.2.2
  let coatingTh := sr + cr
  let diffuseTh := sr + cr + dr
  let branch : Option (Vec3 × BxDFFlags) :=
    if uc ≤ sr then
      let wm0 := disneySampleWm O P.roughness wo u
      let wm := if cosTheta wo * cosTheta wm0 ≤ 0 then -wm0 else wm0
      let wi := reflect wo wm
      if ¬ sameHemisphere wo wi then none
      else some (wi, BxDFFlags.glossyReflection)
    else if sr < uc ∧ uc ≤ coatingTh then
      let wi := sampleCoating O P.clearcoatGloss wo u
      if ¬ sameHemisphere wo wi then none
      else some (wi, BxDFFlags.glossyReflection)
    else if coatingTh < uc ∧ uc ≤ diffuseTh then
      if rv ≤ P.subsurface then
        let wi0 := O.sampleCosineHemisphere u
        let wi := if 0 < wo.z then { wi0 with z := -wi0.z } else wi0
        some (wi, BxDFFlags.diffuseTransmission)
      else
        let wi0 := O.sampleCosineHemisphere u
        let wi := if wo.z < 0 then { wi0 with z := -wi0.z } else wi0
        some (wi, BxDFFlags.diffuseReflection)
    else none
  match branch with
  | none => none
  | some (wi, flag) =>
      let pdf := brdfPDF P O wo wi
      let fd := brdfF P O wo wi
      let wiR := if flip then -wi else wi
      some ⟨fd, wiR, pdf, flag, 1, false⟩

/-! ## LayeredBxDF

Embedding of the generic layered composite (bxdfs.h lines 762-1231).  The two
interface sub-lobes are abstract `Lobe` records (the template parameters of
the C++ class), the Henyey-Greenstein phase function constructed from `g` is
the abstract `Phase` collaborator, the exponential of the transmittance
helper is `fastExp`, the free-flight sampler is `sampleExp`, and the
deterministic per-call RNG is an abstract draw stream `r` indexed by the
number of draws made so far. -/

/-- Abstract sub-lobe of the layered composite: its four operations plus its
flag value, the template-parameter contract of LayeredBxDF. -/
structure Lobe where
  f : Vec3 → Vec3 → TransportMode → S4
  sample_f : Vec3 → ℚ → ℚ × ℚ → TransportMode → RTFlags → Option BSDFSample
  pdf : Vec3 → Vec3 → TransportMode → RTFlags → ℚ
  flags : BxDFFlags

/-- A phase-function sample: value, direction and density. -/
structure PhaseSample where
  p : ℚ
  wi : Vec3
  pdf : ℚ

/-- Phase-function collaborator contract (spec section 6). -/
structure Phase where
  p : Vec3 → Vec3 → ℚ
  sample_p : Vec3 → ℚ × ℚ → Option PhaseSample
  pdf : Vec3 → Vec3 → ℚ

/-- The layered transmittance helper Tr (bxdfs.h lines 1219-1223): one for a
degenerate slab crossing, else the exponential of the slant path length. -/
def trFn (fastExp : ℚ → ℚ) (dz : ℚ) (w : Vec3) : ℚ :=
  if |dz| ≤ floatMin then 1 else fastExp (-|dz / w.z|)

/-- The Russian-roulette step of the LayeredBxDF f random walk
(bxdfs.h lines 874-881): past depth three and below throughput 0.25, kill
with probability `q = max(0, 1 - max-component)`, else divide the throughput
by the survival probability. -/
def rrFStep (depth : ℕ) (beta : S4) (rv : ℚ) : Option S4 :=
  if 3 < depth ∧ beta.maxComponent < 0.25 then
    let q := max 0 (1 - beta.maxComponent)
    if rv < q then none else some (beta.divScalar (1 - q))
  else some beta

/-- The Russian-roulette step of LayeredBxDF Sample_f (bxdfs.h lines
1027-1034): the throughput proxy is `f.max / pdf`, and on survival the
density is multiplied by the survival probability `1 - q`. -/
def rrSampleStep (depth : ℕ) (f : S4) (pdf : ℚ) (rv : ℚ) : Option ℚ :=
  let rrBeta := f.maxComponent / pdf
  if 3 < depth ∧ rrBeta < 0.25 then
    let q := max 0 (1 - rrBeta)
    if rv < q then none else some (pdf * (1 - q))
  else some pdf

/-- Outcome of one iteration of the LayeredBxDF Sample_f loop: terminate with
no sample, terminate with a sample, or continue with updated state
(value, density, depth position, direction, specular-path mark, draw index). -/
inductive StepRes where
  | fail : StepRes
  | done : BSDFSample → StepRes
  | cont : S4 → ℚ → ℚ → Vec3 → Bool → ℕ → StepRes

/-- One iteration of the LayeredBxDF Sample_f random walk (bxdfs.h lines
1025-1104): Russian roulette, then either a medium free-flight (with a phase
scattering event when it stays inside the slab) or a deterministic crossing
with transmittance, then sampling of the reached interface, returning a
sample when that sample is a transmission out of the slab. -/
def layeredStep (top bottom : Lobe) (thickness : ℚ) (albedo : S4)
    (phase : Phase) (fastExp : ℚ → ℚ) (sampleExp : ℚ → ℚ → ℚ)
    (mode : TransportMode) (wo : Vec3) (flipWi : Bool) (r : ℕ → ℚ)
    (depth i : ℕ) (f : S4) (pdf z : ℚ) (w : Vec3) (sp : Bool) : StepRes :=
  let ifacePart : ℚ → ℕ → S4 → ℚ → StepRes := fun z2 i2 f2 pdf2 =>
    let iface := if z2 = 0 then bottom else top
    match iface.sample_f (-w) (r i2) (r (i2 + 1), r (i2 + 2)) mode
        RTFlags.all with
    | none => .fail
    | some bs =>
        if bs.f.isZero ∨ bs.pdf = 0 ∨ bs.wi.z = 0 then .fail
        else
          let f3 := f2 * bs.f
          let pdf3 := pdf2 * bs.pdf
          let sp3 := sp && bs.IsSpecular
          let w3 := bs.wi
          if bs.IsTransmission then
            let fl : BxDFFlags :=
              { refl := (if sameHemisphere wo w3 then true else false),
                trans := (if sameHemisphere wo w3 then false else true),
                diffuse := false, glossy := !sp3, specular := sp3 }
            let wR := if flipWi then -w3 else w3
            .done ⟨f3, wR, pdf3, fl, 1, true⟩
          else .cont (f3.scale (absCosTheta bs.wi)) pdf3 z2 w3 sp3 (i2 + 3)
  match rrSampleStep depth f pdf (r i) with
  | none => .fail
  | some pdf1 =>
    let i1 := if 3 < depth ∧ f.maxComponent / pdf < 0.25 then i + 1 else i
    if w.z = 0 then .fail
    else if ¬ albedo.isZero then
      let dz := sampleExp (r i1) (1 / absCosTheta w)
      let zp := if 0 < w.z then z + dz else z - dz
      if zp = z then .fail
      else if 0 < zp ∧ zp < thickness then
        match phase.sample_p (-w) (r (i1 + 1), r (i1 + 2)) with
        | none => .fail
        | some ps =>
            if ps.pdf = 0 ∨ ps.wi.z = 0 then .fail
            else .cont (f * albedo.scale ps.p) (pdf1 * ps.pdf) zp ps.wi false
              (i1 + 3)
      else ifacePart (clampQ zp 0 thickness) (i1 + 1) f pdf1
    else
      ifacePart (if z = thickness then 0 else thickness) i1
        (f.scale (trFn fastExp thickness w)) pdf1

/-- The LayeredBxDF Sample_f loop over its step, bounded by the maximum walk
depth used as fuel. -/
def layeredWalk (top bottom : Lobe) (thickness : ℚ) (albedo : S4)
    (phase : Phase) (fastExp : ℚ → ℚ) (sampleExp : ℚ → ℚ → ℚ)
    (mode : TransportMode) (wo : Vec3) (flipWi : Bool) (r : ℕ → ℚ) :
    ℕ → ℕ → ℕ → S4 → ℚ → ℚ → Vec3 → Bool → Option BSDFSample
  | 0, _, _, _, _, _, _, _ => none
  | fuel + 1, depth, i, f, pdf, z, w, sp =>
    match layeredStep top bottom thickness albedo phase fastExp sampleExp mode
        wo flipWi r depth i f pdf z w sp with
    | .fail => none
    | .done s => some s
    | .cont f2 pdf2 z2 w2 sp2 i2 =>
        layeredWalk top bottom thickness albedo phase fastExp sampleExp mode
          wo flipWi r fuel (depth + 1) i2 f2 pdf2 z2 w2 sp2

/-- LayeredBxDF Sample_f (bxdfs.h lines 987-1106), after its CHECK on the
request flags: the two-sided flip, the entrance-interface sample (returned
immediately, marked proportional, when it is a reflection), then the random
walk through the layers. -/
def layeredSampleF (top bottom : Lobe) (twoSided : Bool) (maxDepth : ℕ)
    (thickness : ℚ) (albedo : S4) (phase : Phase) (fastExp : ℚ → ℚ)
    (sampleExp : ℚ → ℚ → ℚ) (wo0 : Vec3) (uc : ℚ) (u : ℚ × ℚ)
    (mode : TransportMode) (r : ℕ → ℚ) : Option BSDFSample :=
  let flipWi : Bool := if twoSided = true ∧ wo0.z < 0 then true else false
  let wo := if flipWi then -wo0 else wo0
  let enteredTop := twoSided = true ∨ 0 < wo.z
  match (if enteredTop then top.sample_f wo uc u mode RTFlags.all
         else bottom.sample_f wo uc u mode RTFlags.all) with
  | none => none
  | some bs =>
    if bs.f.isZero ∨ bs.pdf = 0 ∨ bs.wi.z = 0 then none
    else if bs.IsReflection then
      let wiR := if flipWi then -bs.wi else bs.wi
      some { bs with wi := wiR, pdfIsProportional := true }
    else
      layeredWalk top bottom thickness albedo phase fastExp sampleExp mode wo
        flipWi r maxDepth 0 0 (bs.f.scale (absCosTheta bs.wi)) bs.pdf
        (if enteredTop then thickness else 0) bs.wi bs.IsSpecular

/-- LayeredBxDF Sample_f including its CHECK assertion on the request flags
(bxdfs.h line 990): a restricted request aborts, modelled as the outer
`none`; an unrestricted request runs the walk. -/
def layeredSampleFChecked (top bottom : Lobe) (twoSided : Bool)
    (maxDepth : ℕ) (thickness : ℚ) (albedo : S4) (phase : Phase)
    (fastExp : ℚ → ℚ) (sampleExp : ℚ → ℚ → ℚ) (wo0 : Vec3) (uc : ℚ)
    (u : ℚ × ℚ) (mode : TransportMode) (sampleFlags : RTFlags)
    (r : ℕ → ℚ) : Option (Option BSDFSample) :=
  if sampleFlags = RTFlags.all then
    some (layeredSampleF top bottom twoSided maxDepth thickness albedo phase
      fastExp sampleExp wo0 uc u mode r)
  else none

/-- One same-hemisphere (TRT) trial of the LayeredBxDF PDF estimator
(bxdfs.h lines 1136-1175), returning its pdfSum contribution and the updated
draw index. -/
def trialTRT (rI tI : Lobe) (wo wi : Vec3) (mode : TransportMode)
    (r : ℕ → ℚ) (i : ℕ) : ℚ × ℕ :=
  let wos := tI.sample_f wo (r i) (r (i + 1), r (i + 2)) mode RTFlags.transOnly
  let wis := tI.sample_f wi (r (i + 3)) (r (i + 4), r (i + 5)) mode.flip
    RTFlags.transOnly
  match wos, wis with
  | some wos, some wis =>
    if ¬ wos.f.isZero ∧ 0 < wos.pdf ∧ ¬ wis.f.isZero ∧ 0 < wis.pdf then
      if !tI.flags.isNonSpecular then
        (rI.pdf (-wos.wi) (-wis.wi) mode RTFlags.all, i + 6)
      else
        match rI.sample_f (-wos.wi) (r (i + 6)) (r (i + 7), r (i + 8)) mode
            RTFlags.all with
        | some rs =>
          if ¬ rs.f.isZero ∧ 0 < rs.pdf then
            if !rI.flags.isNonSpecular then
              (tI.pdf (-rs.wi) wi mode RTFlags.all, i + 9)
            else
              let rPDF := rI.pdf (-wos.wi) (-wis.wi) mode RTFlags.all
              let wt := powerHeuristic 1 wis.pdf 1 rPDF
              let tPDF := tI.pdf (-rs.wi) wi mode RTFlags.all
              let wt2 := powerHeuristic 1 rs.pdf 1 tPDF
              (wt * rPDF + wt2 * tPDF, i + 9)
          else (0, i + 9)
        | none => (0, i + 9)
    else (0, i + 6)
  | _, _ => (0, i + 6)

/-- One opposite-hemisphere (TT) trial of the LayeredBxDF PDF estimator
(bxdfs.h lines 1177-1210). -/
def trialTT (toI tiI : Lobe) (wo wi : Vec3) (mode : TransportMode)
    (r : ℕ → ℚ) (i : ℕ) : ℚ × ℕ :=
  match toI.sample_f wo (r i) (r (i + 1), r (i + 2)) mode RTFlags.all with
  | none => (0, i + 3)
  | some wos =>
    if wos.f.isZero ∨ wos.pdf = 0 ∨ wos.wi.z = 0 ∨ wos.IsReflection then
      (0, i + 3)
    else
      match tiI.sample_f wi (r (i + 3)) (r (i + 4), r (i + 5)) mode.flip
          RTFlags.all with
      | none => (0, i + 6)
      | some wis =>
        if wis.f.isZero ∨ wis.pdf = 0 ∨ wis.wi.z = 0 ∨ wis.IsReflection then
          (0, i + 6)
        else
          if toI.flags.isSpecular then
            (tiI.pdf (-wos.wi) wi mode RTFlags.all, i + 6)
          else if tiI.flags.isSpecular then
            (toI.pdf wo (-wis.wi) mode RTFlags.all, i + 6)
          else
            ((toI.pdf wo (-wis.wi) mode RTFlags.all +
              tiI.pdf (-wos.wi) wi mode RTFlags.all) / 2, i + 6)

/-- The trial loop of the LayeredBxDF PDF estimator, accumulating pdfSum over
the requested number of trials while threading the draw index. -/
def layeredPDFTrials (top bottom : Lobe) (enteredTop : Bool) (wo wi : Vec3)
    (mode : TransportMode) (r : ℕ → ℚ) : ℕ → ℕ → ℚ → ℚ
  | 0, _, acc => acc
  | s + 1, i, acc =>
    let ti :=
      if sameHemisphere wo wi then
        trialTRT (if enteredTop then bottom else top)
          (if enteredTop then top else bottom) wo wi mode r i
      else
        trialTT (if enteredTop then top else bottom)
          (if enteredTop then bottom else top) wo wi mode r i
    layeredPDFTrials top bottom enteredTop wo wi mode r s ti.2 (acc + ti.1)

/-- The pdfSum accumulator of LayeredBxDF PDF (bxdfs.h lines 1112-1211): the
two-sided flip, the entrance-reflection term scaled by the sample count, and
the Monte Carlo trials. -/
def layeredPDFSum (top bottom : Lobe) (twoSided : Bool) (nSamples : ℕ)
    (wo0 wi0 : Vec3) (mode : TransportMode) (r : ℕ → ℚ) : ℚ :=
  let p := if twoSided = true ∧ wo0.z < 0 then (-wo0, -wi0) else (wo0, wi0)
  let wo := p.1
  let wi := p.2
  let enteredTop := twoSided = true ∨ 0 < wo.z
  let base :=
    if sameHemisphere wo wi then
      (nSamples : ℚ) * (if enteredTop then top.pdf wo wi mode RTFlags.reflOnly
                        else bottom.pdf wo wi mode RTFlags.reflOnly)
    else 0
  layeredPDFTrials top bottom enteredTop wo wi mode r nSamples 0 base

/-- LayeredBxDF PDF after its CHECK (bxdfs.h lines 1109-1214): the 90/10
blend of the Monte Carlo estimate with the constant isotropic density. -/
def layeredPDF (top bottom : Lobe) (twoSided : Bool) (nSamples : ℕ)
    (wo0 wi0 : Vec3) (mode : TransportMode) (r : ℕ → ℚ) : ℚ :=
  lerp 0.9 (1 / (4 * pbrtPi))
    (layeredPDFSum top bottom twoSided nSamples wo0 wi0 mode r / (nSamples : ℚ))

/-- LayeredBxDF PDF including its CHECK assertion on the request flags
(bxdfs.h line 1111): a restricted request aborts, modelled as `none`. -/
def layeredPDFChecked (top bottom : Lobe) (twoSided : Bool) (nSamples : ℕ)
    (wo0 wi0 : Vec3) (mode : TransportMode) (sampleFlags : RTFlags)
    (r : ℕ → ℚ) : Option ℚ :=
  if sampleFlags = RTFlags.all then
    some (layeredPDF top bottom twoSided nSamples wo0 wi0 mode r)
  else none

/-! ## Spec-side formula definitions used by the refinement claims -/

/-- Modelled from the spec, claim C3 wording: the NormalizedFresnel value
`(1 - Fr(cos(theta_i), eta)) / (c pi)` with `c = 1 - 2 FresnelMoment1(1/eta)`,
multiplied by `eta^2` exactly when the transport mode is Importance. -/
def nfFspecClaim (eta : ℚ) (frD : ℚ → ℚ → ℚ) (fm1 : ℚ → ℚ) (wo wi : Vec3)
    (mode : TransportMode) : S4 :=
  if ¬ sameHemisphere wo wi then S4.const 0
  else
    let c := 1 - 2 * fm1 (1 / eta)
    let base := (1 - frD (cosTheta wi) eta) / (c * pbrtPi)
    S4.const (if mode = TransportMode.Importance then base * sqr eta else base)

/-- The amended C3 formula: the same normalized Fresnel value, multiplied by
`eta^2` exactly when the transport mode is Radiance. -/
def nfFspecAmended (eta : ℚ) (frD : ℚ → ℚ → ℚ) (fm1 : ℚ → ℚ) (wo wi : Vec3)
    (mode : TransportMode) : S4 :=
  if ¬ sameHemisphere wo wi then S4.const 0
  else
    let c := 1 - 2 * fm1 (1 / eta)
    let base := (1 - frD (cosTheta wi) eta) / (c * pbrtPi)
    S4.const (if mode = TransportMode.Radiance then base * sqr eta else base)

/-! ## Concrete instances used by witnesses and counterexamples -/

/-- A lobe with empty behavior, used to instantiate witnesses. -/
def trivialLobe : Lobe :=
  ⟨fun _ _ _ => S4.const 0, fun _ _ _ _ _ => none, fun _ _ _ _ => 0,
    BxDFFlags.unset⟩

/-- A phase function with empty behavior, used to instantiate witnesses. -/
def trivialPhase : Phase := ⟨fun _ _ => 0, fun _ _ => none, fun _ _ => 0⟩

/-- A concrete Disney material (metallic 0, clearcoat 0, subsurface 1) used
by the C4 counterexample. -/
def discP : DisneyParams :=
  ⟨S4.const 0.5, 1.5, 0.5, 1, 0, 0, 1, 0, 0, 1, 1, false⟩

/-- A concrete collaborator set for the C4 counterexample: identity
transcendentals, zero Fresnel, and a fixed cosine-hemisphere direction. -/
def discO : MathOracle :=
  ⟨fun x => x, fun x => x, fun x => x, fun x => x, fun x => x, fun x _ => x,
    fun _ => 0, fun _ _ => 0, fun _ => ⟨3 / 5, 0, 4 / 5⟩⟩

/-- A concrete rough (not effectively smooth) microfacet distribution with
constant unit operations and a fixed upward sampled normal. -/
def c6mfRough : MFDist :=
  ⟨fun _ => 1, fun _ _ => 1, fun _ _ => ⟨0, 0, 1⟩, fun _ _ => 1, false⟩

/-- A concrete effectively smooth microfacet distribution. -/
def c6mfSmooth : MFDist :=
  ⟨fun _ => 1, fun _ _ => 1, fun _ _ => ⟨0, 0, 1⟩, fun _ _ => 1, true⟩

/-- A concrete Disney material with metallic 0, clearcoat 0 and subsurface 0,
used by the C9 witness. -/
def discP9 : DisneyParams :=
  ⟨S4.const 1, 3 / 2, 1 / 2, 1 / 2, 0, 0, 0, 0, 0, 1, 1, false⟩

/-- A concrete collaborator set for the C9 witness, with a fixed upward
cosine-hemisphere direction. -/
def discO9 : MathOracle :=
  ⟨fun x => x, fun x => x, fun _ => 1, fun _ => 0, fun x => x, fun x _ => x,
    fun _ => 0, fun _ _ => 0, fun _ => ⟨0, 0, 1⟩⟩

/-! ## Shared helper lemmas -/

/-- Two vectors with equal components are equal. -/
theorem vec3Ext (a b : Vec3) (hx : a.x = b.x) (hy : a.y = b.y)
    (hz : a.z = b.z) : a = b := by
  cases a; cases b; simp_all

/-- Two spectra with equal components are equal. -/
theorem s4Ext (a b : S4) (h0 : a.c0 = b.c0) (h1 : a.c1 = b.c1)
    (h2 : a.c2 = b.c2) (h3 : a.c3 = b.c3) : a = b := by
  cases a; cases b; simp_all

/-- The inner product is symmetric. -/
theorem dot_comm (a b : Vec3) : dot a b = dot b a := by
  unfold dot; ring

/-- The inner product distributes over vector addition on the right. -/
theorem dot_add_right (a b c : Vec3) : dot a (b + c) = dot a b + dot a c := by
  cases b; cases c; unfold dot; simp; ring

/-- Scaling factors out of the inner product on the right. -/
theorem dot_scale_right (a v : Vec3) (k : ℚ) :
    dot a (v.scale k) = k * dot a v := by
  cases v; unfold dot; simp; ring

/-- Vector addition is commutative. -/
theorem vec3_add_comm (a b : Vec3) : a + b = b + a := by
  apply vec3Ext <;> simp <;> ring

/-- The hemisphere test is symmetric. -/
theorem sameHemisphere_comm (a b : Vec3) :
    sameHemisphere a b = sameHemisphere b a := by
  unfold sameHemisphere
  rw [mul_comm]

/-- The power heuristic is never negative over the rationals. -/
theorem powerHeuristic_nonneg (nf fPdf ng gPdf : ℚ) :
    0 ≤ powerHeuristic nf fPdf ng gPdf := by
  unfold powerHeuristic sqr
  exact div_nonneg (mul_self_nonneg _)
    (add_nonneg (mul_self_nonneg _) (mul_self_nonneg _))

/-- The renderer's Pi constant is positive. -/
theorem pbrtPi_pos : 0 < pbrtPi := by norm_num [pbrtPi]

/-- Composed scalings of a vector multiply their factors. -/
theorem Vec3.scale_scale (v : Vec3) (k k' : ℚ) :
    (v.scale k).scale k' = v.scale (k' * k) := by
  apply vec3Ext
  all_goals (simp; try ring)

/-- Scaling a vector by one is the identity. -/
theorem Vec3.scale_one (v : Vec3) : v.scale 1 = v := by
  apply vec3Ext
  all_goals simp

/-- Scaling a vector by minus one is negation. -/
theorem Vec3.scale_neg_one (v : Vec3) : v.scale (-1) = -v := by
  apply vec3Ext
  all_goals simp

/-- Double negation of a vector is the identity. -/
theorem Vec3.neg_neg (v : Vec3) : -(-v) = v := by
  apply vec3Ext
  all_goals simp

/-- The outgoing direction plus its mirror reflection about `n` equals `n`
scaled by twice the projection onto `n`. -/
theorem reflect_decomp (wo n : Vec3) :
    wo + reflect wo n = n.scale (2 * dot wo n) := by
  unfold reflect
  apply vec3Ext
  all_goals (simp; try ring)

/-- The inner product of a scaled vector with itself. -/
theorem dot_scale_self (v : Vec3) (k : ℚ) :
    dot (v.scale k) (v.scale k) = k * k * dot v v := by
  unfold dot
  simp
  try ring

/-! ## Claim C3 -/

/-- C3 counterexample: at `eta = 2`, normal incidence, Importance transport
and constant-zero Fresnel collaborators, NormalizedFresnelBxDF f does not
carry the `eta^2` factor the claim attaches to Importance transport, so it
differs from the claim's formula. -/
theorem nfF_c3_counterexample :
    nfF 2 (fun _ _ => 0) (fun _ => 0) ⟨0, 0, 1⟩ ⟨0, 0, 1⟩
      TransportMode.Importance ≠
    nfFspecClaim 2 (fun _ _ => 0) (fun _ => 0) ⟨0, 0, 1⟩ ⟨0, 0, 1⟩
      TransportMode.Importance := by
  simp only [nfF, nfFspecClaim, sameHemisphere, cosTheta, sqr, S4.scale,
    S4.const]
  norm_num [pbrtPi, S4.mk.injEq]
  decide

/-- C3 (amended): for every direction pair, NormalizedFresnelBxDF f equals
`(1 - FrDielectric(cos(theta_i), eta)) / (c pi)` with
`c = 1 - 2 FresnelMoment1(1/eta)` on matching hemispheres (zero otherwise),
multiplied by `eta^2` exactly when the transport mode is Radiance, not
Importance. -/
theorem nfF_c3_amended (eta : ℚ) (frD : ℚ → ℚ → ℚ) (fm1 : ℚ → ℚ)
    (wo wi : Vec3) (mode : TransportMode) :
    nfF eta frD fm1 wo wi mode = nfFspecAmended eta frD fm1 wo wi mode := by
  unfold nfF nfFspecAmended
  by_cases h : sameHemisphere wo wi
  · simp only [h]
    cases mode
    all_goals simp
    all_goals apply s4Ext
    all_goals simp [S4.const, S4.scale]
    all_goals ring
  · simp [h]

/-! ## Claim C10 -/

/-- C10: LayeredBxDF Sample_f and PDF assert `sampleFlags == All`; any
restricted request value fails the CHECK (modelled as the aborting `none`),
and the unrestricted request runs the respective operation, whose result
never consults the request flags. -/
theorem layered_c10_check_flags (top bottom : Lobe) (twoSided : Bool)
    (maxDepth nSamples : ℕ) (thickness : ℚ) (albedo : S4) (phase : Phase)
    (fastExp : ℚ → ℚ) (sampleExp : ℚ → ℚ → ℚ) (wo : Vec3) (uc : ℚ)
    (u : ℚ × ℚ) (wi : Vec3) (mode : TransportMode) (r rp : ℕ → ℚ)
    (sampleFlags : RTFlags) (h : sampleFlags ≠ RTFlags.all) :
    layeredSampleFChecked top bottom twoSided maxDepth thickness albedo phase
        fastExp sampleExp wo uc u mode sampleFlags r = none ∧
    layeredPDFChecked top bottom twoSided nSamples wo wi mode sampleFlags
        rp = none ∧
    layeredSampleFChecked top bottom twoSided maxDepth thickness albedo phase
        fastExp sampleExp wo uc u mode RTFlags.all r =
      some (layeredSampleF top bottom twoSided maxDepth thickness albedo phase
        fastExp sampleExp wo uc u mode r) ∧
    layeredPDFChecked top bottom twoSided nSamples wo wi mode RTFlags.all rp =
      some (layeredPDF top bottom twoSided nSamples wo wi mode rp) := by
  refine ⟨?_, ?_, ?_, ?_⟩
  all_goals simp [layeredSampleFChecked, layeredPDFChecked, h]

/-- Witness for C10 at a concrete restricted request (Reflection-only). -/
theorem layered_c10_check_flags_witness :
    RTFlags.reflOnly ≠ RTFlags.all ∧
    (layeredSampleFChecked trivialLobe trivialLobe true 1 1 (S4.const 0)
        trivialPhase (fun _ => 1) (fun _ _ => 1) ⟨0, 0, 1⟩ 0 (0, 0)
        TransportMode.Radiance RTFlags.reflOnly (fun _ => 0) = none ∧
      layeredPDFChecked trivialLobe trivialLobe true 1 ⟨0, 0, 1⟩ ⟨0, 0, 1⟩
        TransportMode.Radiance RTFlags.reflOnly (fun _ => 0) = none ∧
      layeredSampleFChecked trivialLobe trivialLobe true 1 1 (S4.const 0)
        trivialPhase (fun _ => 1) (fun _ _ => 1) ⟨0, 0, 1⟩ 0 (0, 0)
        TransportMode.Radiance RTFlags.all (fun _ => 0) =
        some (layeredSampleF trivialLobe trivialLobe true 1 1 (S4.const 0)
          trivialPhase (fun _ => 1) (fun _ _ => 1) ⟨0, 0, 1⟩ 0 (0, 0)
          TransportMode.Radiance (fun _ => 0)) ∧
      layeredPDFChecked trivialLobe trivialLobe true 1 ⟨0, 0, 1⟩ ⟨0, 0, 1⟩
        TransportMode.Radiance RTFlags.all (fun _ => 0) =
        some (layeredPDF trivialLobe trivialLobe true 1 ⟨0, 0, 1⟩ ⟨0, 0, 1⟩
          TransportMode.Radiance (fun _ => 0))) :=
  ⟨by decide,
    layered_c10_check_flags trivialLobe trivialLobe true 1 1 1 (S4.const 0)
      trivialPhase (fun _ => 1) (fun _ _ => 1) ⟨0, 0, 1⟩ 0 (0, 0) ⟨0, 0, 1⟩
      TransportMode.Radiance (fun _ => 0) (fun _ => 0) RTFlags.reflOnly
      (by decide)⟩

/-! ## Claim C2 -/

/-- C2: in the LayeredBxDF random walks, Russian roulette fires only when the
depth exceeds three and the throughput proxy is below 0.25; with
`q = max(0, 1 - max-component)` the walk survives exactly when the uniform
draw is at least `q` (so it continues with probability `1 - q`), on survival
the f-walk divides the throughput by `1 - q` while Sample_f multiplies the
density by `1 - q`, and the adjustment is unbiased: the survival probability
`1 - q` times the adjusted throughput recovers the original throughput. -/
theorem rr_c2_properties (depth : ℕ) (beta fS : S4) (pdf rv : ℚ)
    (d2 : ℕ) (b2 : S4) (r2 : ℚ) (d3 : ℕ) (f3 : S4) (p3 r3 : ℚ)
    (d4 : ℕ) (b4 : S4) (r4 : ℚ)
    (hcond : 3 < depth ∧ beta.maxComponent < 0.25)
    (hconds : 3 < depth ∧ fS.maxComponent / pdf < 0.25)
    (hsurv : max 0 (1 - beta.maxComponent) ≤ rv)
    (hsurvs : max 0 (1 - fS.maxComponent / pdf) ≤ rv)
    (hq : max 0 (1 - beta.maxComponent) < 1)
    (hno : ¬(3 < d2 ∧ b2.maxComponent < 0.25))
    (hnos : ¬(3 < d3 ∧ f3.maxComponent / p3 < 0.25))
    (hkill : 3 < d4 ∧ b4.maxComponent < 0.25)
    (hkillr : r4 < max 0 (1 - b4.maxComponent)) :
    rrFStep depth beta rv
      = some (beta.divScalar (1 - max 0 (1 - beta.maxComponent))) ∧
    rrSampleStep depth fS pdf rv
      = some (pdf * (1 - max 0 (1 - fS.maxComponent / pdf))) ∧
    (beta.divScalar (1 - max 0 (1 - beta.maxComponent))).scale
      (1 - max 0 (1 - beta.maxComponent)) = beta ∧
    rrFStep d2 b2 r2 = some b2 ∧
    rrSampleStep d3 f3 p3 r3 = some p3 ∧
    rrFStep d4 b4 r4 = none := by
  have h1 : ¬ (rv < max 0 (1 - beta.maxComponent)) := not_lt.mpr hsurv
  have h2 : ¬ (rv < max 0 (1 - fS.maxComponent / pdf)) := not_lt.mpr hsurvs
  have hne : (1 : ℚ) - max 0 (1 - beta.maxComponent) ≠ 0 := by
    intro h
    rw [sub_eq_zero] at h
    exact absurd h.symm (ne_of_lt hq)
  refine ⟨?_, ?_, ?_, ?_, ?_, ?_⟩
  · unfold rrFStep
    simp [hcond.1, hcond.2, h1]
  · unfold rrSampleStep
    simp [hconds.1, hconds.2, h2]
  · apply s4Ext
    all_goals simp [S4.divScalar, S4.scale]
    all_goals rw [mul_comm]
    all_goals exact div_mul_cancel₀ _ hne
  · unfold rrFStep
    rw [if_neg hno]
  · unfold rrSampleStep
    rw [if_neg hnos]
  · unfold rrFStep
    simp [hkill.1, hkill.2, hkillr]

/-- Witness for C2 at depth five, throughput one eighth, draw 0.9. -/
theorem rr_c2_properties_witness :
    ((3 < 5 ∧ (S4.const 0.125).maxComponent < 0.25) ∧
      max 0 (1 - (S4.const 0.125).maxComponent) ≤ (0.9 : ℚ) ∧
      max 0 (1 - (S4.const 0.125).maxComponent) < 1) ∧
    rrFStep 5 (S4.const 0.125) 0.9
      = some ((S4.const 0.125).divScalar
          (1 - max 0 (1 - (S4.const 0.125).maxComponent))) ∧
    rrSampleStep 5 (S4.const 0.125) 1 0.9
      = some (1 * (1 - max 0 (1 - (S4.const 0.125).maxComponent / 1))) ∧
    ((S4.const 0.125).divScalar
        (1 - max 0 (1 - (S4.const 0.125).maxComponent))).scale
      (1 - max 0 (1 - (S4.const 0.125).maxComponent)) = S4.const 0.125 ∧
    rrFStep 1 (S4.const 0) 0 = some (S4.const 0) ∧
    rrSampleStep 1 (S4.const 0) 1 0 = some 1 ∧
    rrFStep 5 (S4.const 0.125) 0 = none := by
  have h := rr_c2_properties 5 (S4.const 0.125) (S4.const 0.125) 1 0.9
    1 (S4.const 0) 0 1 (S4.const 0) 1 0 5 (S4.const 0.125) 0
    (by norm_num [S4.maxComponent, S4.const])
    (by norm_num [S4.maxComponent, S4.const])
    (by norm_num [S4.maxComponent, S4.const])
    (by norm_num [S4.maxComponent, S4.const])
    (by norm_num [S4.maxComponent, S4.const])
    (by norm_num [S4.maxComponent, S4.const])
    (by norm_num [S4.maxComponent, S4.const])
    (by norm_num [S4.maxComponent, S4.const])
    (by norm_num [S4.maxComponent, S4.const])
  exact ⟨⟨by norm_num [S4.maxComponent, S4.const],
      by norm_num [S4.maxComponent, S4.const],
      by norm_num [S4.maxComponent, S4.const]⟩,
    h.1, h.2.1, h.2.2.1, h.2.2.2.1, h.2.2.2.2.1, h.2.2.2.2.2⟩

/-! ## Claim C7 -/

/-- C7: for ThinDielectricBxDF Sample_f at `wo = (0,0,1)` and `eta = 1.5`,
the branch probabilities come from the base reflectance
`R = FrDielectric(1, 1.5)` adjusted as `Rp = R + T^2 R / (1 - R^2)` with
`T = 1 - R` (applied because `R < 1`), `Tp = 1 - Rp`, the two
branch-selection probabilities sum to one, and the returned sample's density
is one of those two probabilities. -/
theorem thin_c7_fresnel_adjust (frD : ℚ → ℚ → ℚ) (uc : ℚ) (u : ℚ × ℚ)
    (mode : TransportMode) (h1 : frD 1 (3 / 2) < 1) :
    (thinRT (3 / 2) frD ⟨0, 0, 1⟩).1
      = frD 1 (3 / 2) +
        sqr (1 - frD 1 (3 / 2)) * frD 1 (3 / 2) / (1 - sqr (frD 1 (3 / 2))) ∧
    (thinRT (3 / 2) frD ⟨0, 0, 1⟩).2 = 1 - (thinRT (3 / 2) frD ⟨0, 0, 1⟩).1 ∧
    (thinRT (3 / 2) frD ⟨0, 0, 1⟩).1 /
        ((thinRT (3 / 2) frD ⟨0, 0, 1⟩).1 + (thinRT (3 / 2) frD ⟨0, 0, 1⟩).2) +
      (thinRT (3 / 2) frD ⟨0, 0, 1⟩).2 /
        ((thinRT (3 / 2) frD ⟨0, 0, 1⟩).1 + (thinRT (3 / 2) frD ⟨0, 0, 1⟩).2)
      = 1 ∧
    ((thinSampleF (3 / 2) frD ⟨0, 0, 1⟩ uc u mode RTFlags.all).map
        BSDFSample.pdf
      = some ((thinRT (3 / 2) frD ⟨0, 0, 1⟩).1 /
          ((thinRT (3 / 2) frD ⟨0, 0, 1⟩).1 +
            (thinRT (3 / 2) frD ⟨0, 0, 1⟩).2)) ∨
     (thinSampleF (3 / 2) frD ⟨0, 0, 1⟩ uc u mode RTFlags.all).map
        BSDFSample.pdf
      = some ((thinRT (3 / 2) frD ⟨0, 0, 1⟩).2 /
          ((thinRT (3 / 2) frD ⟨0, 0, 1⟩).1 +
            (thinRT (3 / 2) frD ⟨0, 0, 1⟩).2))) := by
  have habs : absCosTheta (⟨0, 0, 1⟩ : Vec3) = 1 := by
    norm_num [absCosTheta]
  have hRT : thinRT (3 / 2) frD ⟨0, 0, 1⟩
      = (frD 1 (3 / 2) +
          sqr (1 - frD 1 (3 / 2)) * frD 1 (3 / 2) / (1 - sqr (frD 1 (3 / 2))),
        1 - (frD 1 (3 / 2) +
          sqr (1 - frD 1 (3 / 2)) * frD 1 (3 / 2) /
            (1 - sqr (frD 1 (3 / 2))))) := by
    unfold thinRT
    simp only [habs]
    rw [if_pos h1]
  have hsum : (thinRT (3 / 2) frD ⟨0, 0, 1⟩).1 +
      (thinRT (3 / 2) frD ⟨0, 0, 1⟩).2 = 1 := by
    rw [hRT]
    ring
  have hnot : ¬ ((thinRT (3 / 2) frD ⟨0, 0, 1⟩).1 = 0 ∧
      (thinRT (3 / 2) frD ⟨0, 0, 1⟩).2 = 0) := by
    intro hz
    rw [hz.1, hz.2] at hsum
    norm_num at hsum
  refine ⟨by rw [hRT], by rw [hRT], ?_, ?_⟩
  · rw [hsum, div_one, div_one]
    rw [hRT]
    ring
  · unfold thinSampleF
    simp only [RTFlags.all, if_true]
    rw [if_neg hnot]
    by_cases hc : uc < (thinRT (3 / 2) frD ⟨0, 0, 1⟩).1 /
      ((thinRT (3 / 2) frD ⟨0, 0, 1⟩).1 + (thinRT (3 / 2) frD ⟨0, 0, 1⟩).2)
    · left
      rw [if_pos hc]
      rfl
    · right
      rw [if_neg hc]
      rfl

/-- Witness for C7 with the exact normal-incidence reflectance 1/25. -/
theorem thin_c7_fresnel_adjust_witness :
    ((fun _ _ : ℚ => (1 : ℚ) / 25) 1 (3 / 2) < 1) ∧
    (thinRT (3 / 2) (fun _ _ => 1 / 25) ⟨0, 0, 1⟩).1
      = (1 : ℚ) / 25 + sqr (1 - 1 / 25) * (1 / 25) / (1 - sqr (1 / 25)) ∧
    (thinRT (3 / 2) (fun _ _ => 1 / 25) ⟨0, 0, 1⟩).1 /
        ((thinRT (3 / 2) (fun _ _ => 1 / 25) ⟨0, 0, 1⟩).1 +
          (thinRT (3 / 2) (fun _ _ => 1 / 25) ⟨0, 0, 1⟩).2) +
      (thinRT (3 / 2) (fun _ _ => 1 / 25) ⟨0, 0, 1⟩).2 /
        ((thinRT (3 / 2) (fun _ _ => 1 / 25) ⟨0, 0, 1⟩).1 +
          (thinRT (3 / 2) (fun _ _ => 1 / 25) ⟨0, 0, 1⟩).2) = 1 := by
  have h := thin_c7_fresnel_adjust (fun _ _ => 1 / 25) (1 / 2) (0, 0)
    TransportMode.Radiance (by norm_num)
  exact ⟨by norm_num, h.1, h.2.2.1⟩

/-! ## Claim C8 -/

/-- For unit directions, the absolute inner products of the two directions
with the normalized half vector agree, whatever value the external square
root returns. -/
theorem conductor_absdot_symm (sq : ℚ → ℚ) (wo wi : Vec3)
    (hwo : dot wo wo = 1) (hwi : dot wi wi = 1) :
    absDot wo (normalize sq (wi + wo)) = absDot wi (normalize sq (wi + wo)) := by
  have h1 : dot wo (wi + wo) = dot wi (wi + wo) := by
    rw [dot_add_right, dot_add_right, hwo, hwi, dot_comm wi wo]
    ring
  unfold absDot normalize
  rw [dot_scale_right, dot_scale_right, h1]

/-- C8: DiffuseBxDF f and ConductorBxDF f are reciprocal: for direction pairs
in matching hemispheres (unit length, with the symmetric shadowing-masking
collaborator), swapping the two directions leaves the value unchanged. -/
theorem reciprocity_c8 (R : S4) (mf : MFDist) (frC : ℚ → S4) (sq : ℚ → ℚ)
    (wo wi : Vec3) (mode : TransportMode)
    (hG : ∀ a b, mf.g a b = mf.g b a)
    (hwo : dot wo wo = 1) (hwi : dot wi wi = 1)
    (hhem : sameHemisphere wo wi) :
    diffuseF R wo wi mode = diffuseF R wi wo mode ∧
    conductorF mf frC sq wo wi mode = conductorF mf frC sq wi wo mode := by
  have hsym : sameHemisphere wi wo := by
    unfold sameHemisphere at hhem ⊢
    rw [mul_comm]
    exact hhem
  have hAB : sameHemisphere wo wi ↔ sameHemisphere wi wo :=
    ⟨fun _ => hsym, fun _ => hhem⟩
  constructor
  · unfold diffuseF
    rw [if_neg (not_not_intro hhem), if_neg (not_not_intro hsym)]
  · simp only [conductorF]
    rw [if_neg (not_not_intro hhem), if_neg (not_not_intro hsym)]
    by_cases hsm : mf.effectivelySmooth = true
    · rw [if_pos hsm, if_pos hsm]
    · rw [if_neg hsm, if_neg hsm]
      by_cases hz : absCosTheta wi = 0 ∨ absCosTheta wo = 0
      · rw [if_pos hz, if_pos (Or.symm hz)]
      · rw [if_neg hz, if_neg (fun h => hz (Or.symm h))]
        rw [vec3_add_comm wo wi]
        by_cases hw : dot (wi + wo) (wi + wo) = 0
        · rw [if_pos hw, if_pos hw]
        · rw [if_neg hw, if_neg hw]
          rw [conductor_absdot_symm sq wo wi hwo hwi, hG wo wi]
          apply s4Ext
          all_goals simp only [S4.scale_c0, S4.scale_c1, S4.scale_c2,
            S4.scale_c3]
          all_goals ring

/-- Witness for C8 at normal incidence with a constant collaborator set. -/
theorem reciprocity_c8_witness :
    ((∀ a b, (MFDist.mk (fun _ => 1) (fun _ _ => 1) (fun _ _ => ⟨0, 0, 1⟩)
        (fun _ _ => 1) false).g a b
      = (MFDist.mk (fun _ => 1) (fun _ _ => 1) (fun _ _ => ⟨0, 0, 1⟩)
        (fun _ _ => 1) false).g b a) ∧
      dot ⟨0, 0, 1⟩ ⟨0, 0, 1⟩ = 1 ∧
      sameHemisphere (⟨0, 0, 1⟩ : Vec3) ⟨0, 0, 1⟩) ∧
    diffuseF (S4.const 1) ⟨0, 0, 1⟩ ⟨0, 0, 1⟩ TransportMode.Radiance
      = diffuseF (S4.const 1) ⟨0, 0, 1⟩ ⟨0, 0, 1⟩ TransportMode.Radiance ∧
    conductorF (MFDist.mk (fun _ => 1) (fun _ _ => 1) (fun _ _ => ⟨0, 0, 1⟩)
        (fun _ _ => 1) false) (fun _ => S4.const 1) (fun x => x)
        ⟨0, 0, 1⟩ ⟨0, 0, 1⟩ TransportMode.Radiance
      = conductorF (MFDist.mk (fun _ => 1) (fun _ _ => 1)
        (fun _ _ => ⟨0, 0, 1⟩) (fun _ _ => 1) false) (fun _ => S4.const 1)
        (fun x => x) ⟨0, 0, 1⟩ ⟨0, 0, 1⟩ TransportMode.Radiance := by
  have h := reciprocity_c8 (S4.const 1)
    (MFDist.mk (fun _ => 1) (fun _ _ => 1) (fun _ _ => ⟨0, 0, 1⟩)
      (fun _ _ => 1) false)
    (fun _ => S4.const 1) (fun x => x) ⟨0, 0, 1⟩ ⟨0, 0, 1⟩
    TransportMode.Radiance (fun _ _ => rfl)
    (by norm_num [dot]) (by norm_num [dot])
    (by norm_num [sameHemisphere])
  exact ⟨⟨fun _ _ => rfl, by norm_num [dot], by norm_num [sameHemisphere]⟩,
    h.1, h.2⟩

/-! ## Claim C1 -/

/-- Every TRT trial contributes a nonnegative amount to pdfSum, given that
the two interface densities are nonnegative. -/
theorem trialTRT_nonneg (rI tI : Lobe) (wo wi : Vec3) (mode : TransportMode)
    (r : ℕ → ℚ) (i : ℕ)
    (hr : ∀ a b m fl, 0 ≤ rI.pdf a b m fl)
    (ht : ∀ a b m fl, 0 ≤ tI.pdf a b m fl) :
    0 ≤ (trialTRT rI tI wo wi mode r i).1 := by
  unfold trialTRT
  cases h1 : tI.sample_f wo (r i) (r (i + 1), r (i + 2)) mode
      RTFlags.transOnly with
  | none =>
    cases h2 : tI.sample_f wi (r (i + 3)) (r (i + 4), r (i + 5)) mode.flip
      RTFlags.transOnly
    all_goals norm_num
  | some wos =>
    cases h2 : tI.sample_f wi (r (i + 3)) (r (i + 4), r (i + 5)) mode.flip
        RTFlags.transOnly with
    | none => norm_num
    | some wis =>
      dsimp only
      cases h3 : rI.sample_f (-wos.wi) (r (i + 6)) (r (i + 7), r (i + 8))
          mode RTFlags.all with
      | none =>
        split_ifs
        all_goals (first
          | exact hr _ _ _ _
          | norm_num)
      | some rs =>
        dsimp only
        split_ifs
        all_goals (first
          | exact hr _ _ _ _
          | exact ht _ _ _ _
          | exact add_nonneg
              (mul_nonneg (powerHeuristic_nonneg _ _ _ _) (hr _ _ _ _))
              (mul_nonneg (powerHeuristic_nonneg _ _ _ _) (ht _ _ _ _))
          | norm_num)

/-- Every TT trial contributes a nonnegative amount to pdfSum, given that the
two interface densities are nonnegative. -/
theorem trialTT_nonneg (toI tiI : Lobe) (wo wi : Vec3) (mode : TransportMode)
    (r : ℕ → ℚ) (i : ℕ)
    (hto : ∀ a b m fl, 0 ≤ toI.pdf a b m fl)
    (hti : ∀ a b m fl, 0 ≤ tiI.pdf a b m fl) :
    0 ≤ (trialTT toI tiI wo wi mode r i).1 := by
  unfold trialTT
  cases h1 : toI.sample_f wo (r i) (r (i + 1), r (i + 2)) mode
      RTFlags.all with
  | none => norm_num
  | some wos =>
    dsimp only
    cases h2 : tiI.sample_f wi (r (i + 3)) (r (i + 4), r (i + 5)) mode.flip
        RTFlags.all with
    | none =>
      split_ifs
      all_goals norm_num
    | some wis =>
      dsimp only
      split_ifs
      all_goals (first
        | exact hto _ _ _ _
        | exact hti _ _ _ _
        | exact div_nonneg (add_nonneg (hto _ _ _ _) (hti _ _ _ _))
            (by norm_num)
        | norm_num)

/-- The trial loop preserves nonnegativity of the accumulator. -/
theorem layeredPDFTrials_nonneg (top bottom : Lobe) (enteredTop : Bool)
    (wo wi : Vec3) (mode : TransportMode) (r : ℕ → ℚ)
    (hT : ∀ a b m fl, 0 ≤ top.pdf a b m fl)
    (hB : ∀ a b m fl, 0 ≤ bottom.pdf a b m fl) (s : ℕ) :
    ∀ i acc, 0 ≤ acc →
      0 ≤ layeredPDFTrials top bottom enteredTop wo wi mode r s i acc := by
  induction s with
  | zero =>
    intro i acc h
    simpa [layeredPDFTrials] using h
  | succ n ih =>
    intro i acc h
    simp only [layeredPDFTrials]
    apply ih
    apply add_nonneg h
    split_ifs
    · exact trialTRT_nonneg _ _ _ _ _ _ _ hB hT
    · exact trialTRT_nonneg _ _ _ _ _ _ _ hT hB
    · exact trialTT_nonneg _ _ _ _ _ _ _ hT hB
    · exact trialTT_nonneg _ _ _ _ _ _ _ hB hT

/-- The pdfSum accumulator is nonnegative under nonnegative sub-lobe
densities. -/
theorem layeredPDFSum_nonneg (top bottom : Lobe) (twoSided : Bool)
    (nSamples : ℕ) (wo wi : Vec3) (mode : TransportMode) (r : ℕ → ℚ)
    (hT : ∀ a b m fl, 0 ≤ top.pdf a b m fl)
    (hB : ∀ a b m fl, 0 ≤ bottom.pdf a b m fl) :
    0 ≤ layeredPDFSum top bottom twoSided nSamples wo wi mode r := by
  unfold layeredPDFSum
  apply layeredPDFTrials_nonneg _ _ _ _ _ _ _ hT hB
  split_ifs
  all_goals (first
    | exact mul_nonneg (Nat.cast_nonneg _) (hT _ _ _ _)
    | exact mul_nonneg (Nat.cast_nonneg _) (hB _ _ _ _)
    | norm_num)

/-- C1: LayeredBxDF PDF returns 0.9 times the Monte Carlo estimate (pdfSum
over nSamples) plus 0.1 times the constant isotropic density 1/(4 pi); in
particular, with nonnegative sub-lobe densities and a positive sample count,
the returned density is at least 0.1/(4 pi) and strictly positive. -/
theorem layeredPDF_c1_blend (top bottom : Lobe) (twoSided : Bool)
    (nSamples : ℕ) (wo wi : Vec3) (mode : TransportMode) (r : ℕ → ℚ)
    (hT : ∀ a b m fl, 0 ≤ top.pdf a b m fl)
    (hB : ∀ a b m fl, 0 ≤ bottom.pdf a b m fl)
    (_hn : 0 < nSamples) :
    layeredPDF top bottom twoSided nSamples wo wi mode r
      = 0.9 * (layeredPDFSum top bottom twoSided nSamples wo wi mode r
          / (nSamples : ℚ)) + 0.1 * (1 / (4 * pbrtPi)) ∧
    0.1 * (1 / (4 * pbrtPi))
      ≤ layeredPDF top bottom twoSided nSamples wo wi mode r ∧
    0 < layeredPDF top bottom twoSided nSamples wo wi mode r := by
  have hblend : layeredPDF top bottom twoSided nSamples wo wi mode r
      = 0.9 * (layeredPDFSum top bottom twoSided nSamples wo wi mode r
          / (nSamples : ℚ)) + 0.1 * (1 / (4 * pbrtPi)) := by
    unfold layeredPDF lerp
    ring_nf
  have hsum := layeredPDFSum_nonneg top bottom twoSided nSamples wo wi mode r
    hT hB
  have hest : 0 ≤ 0.9 * (layeredPDFSum top bottom twoSided nSamples wo wi
      mode r / (nSamples : ℚ)) :=
    mul_nonneg (by norm_num) (div_nonneg hsum (Nat.cast_nonneg _))
  have hiso : 0 < (0.1 : ℚ) * (1 / (4 * pbrtPi)) := by
    have := pbrtPi_pos
    positivity
  refine ⟨hblend, ?_, ?_⟩
  · rw [hblend]
    linarith
  · rw [hblend]
    linarith

/-- Witness for C1 with trivial interfaces and one trial. -/
theorem layeredPDF_c1_blend_witness :
    (∀ a b m fl, 0 ≤ trivialLobe.pdf a b m fl) ∧ 0 < 1 ∧
    layeredPDF trivialLobe trivialLobe true 1 ⟨0, 0, 1⟩ ⟨0, 0, 1⟩
        TransportMode.Radiance (fun _ => 0)
      = 0.9 * (layeredPDFSum trivialLobe trivialLobe true 1 ⟨0, 0, 1⟩
          ⟨0, 0, 1⟩ TransportMode.Radiance (fun _ => 0) / ((1 : ℕ) : ℚ))
        + 0.1 * (1 / (4 * pbrtPi)) ∧
    0.1 * (1 / (4 * pbrtPi))
      ≤ layeredPDF trivialLobe trivialLobe true 1 ⟨0, 0, 1⟩ ⟨0, 0, 1⟩
          TransportMode.Radiance (fun _ => 0) ∧
    0 < layeredPDF trivialLobe trivialLobe true 1 ⟨0, 0, 1⟩ ⟨0, 0, 1⟩
        TransportMode.Radiance (fun _ => 0) := by
  have h := layeredPDF_c1_blend trivialLobe trivialLobe true 1 ⟨0, 0, 1⟩
    ⟨0, 0, 1⟩ TransportMode.Radiance (fun _ => 0)
    (fun _ _ _ _ => le_refl 0) (fun _ _ _ _ => le_refl 0) (by norm_num)
  exact ⟨fun _ _ _ _ => le_refl 0, by norm_num, h.1, h.2.1, h.2.2⟩

/-! ## Claim C4 -/

/-- C4 counterexample: DisneyBxDF Sample_f under a Reflection-only request
returns a sample flagged DiffuseTransmission, an excluded transport kind —
the request flags are never consulted. -/
theorem disney_c4_counterexample :
    RTFlags.reflOnly.trans = false ∧
    (disneySampleF discP discO ⟨0, 0, 1⟩ 0.8 (0.3, 0.7)
        TransportMode.Radiance RTFlags.reflOnly 0.5).map
      (fun s => s.flags.trans) = some true := by
  constructor
  · rfl
  · norm_num [disneySampleF, computeWeights, discP, discO,
      BxDFFlags.diffuseTransmission]

/-- C4 (amended): DiffuseBxDF and ConductorBxDF Sample_f honor the request
restriction — a sample is returned only when Reflection was requested and it
always carries the Reflection kind, never the Transmission kind, so an
excluded kind is never produced and a Reflection-excluding request yields the
empty result; DisneyBxDF Sample_f, by contrast, ignores the request flags and
can return samples of an excluded kind. -/
theorem c4_flags_honored (R : S4) (cosSampler : ℚ × ℚ → Vec3)
    (mf : MFDist) (frC : ℚ → S4) (wo1 : Vec3) (uc1 : ℚ) (u1 : ℚ × ℚ)
    (mode1 : TransportMode) (fl1 : RTFlags) (wo2 : Vec3) (uc2 : ℚ)
    (u2 : ℚ × ℚ) (mode2 : TransportMode) (fl2 : RTFlags) (s1 s2 : BSDFSample)
    (hs1 : diffuseSampleF R cosSampler wo1 uc1 u1 mode1 fl1 = some s1)
    (hs2 : conductorSampleF mf frC wo2 uc2 u2 mode2 fl2 = some s2) :
    fl1.refl = true ∧ s1.flags.refl = true ∧ s1.flags.trans = false ∧
    fl2.refl = true ∧ s2.flags.refl = true ∧ s2.flags.trans = false := by
  have h1 : fl1.refl = true ∧ s1.flags = BxDFFlags.diffuseReflection := by
    simp only [diffuseSampleF] at hs1
    split_ifs at hs1 with h hz
    all_goals (simp at h; injection hs1 with hs1; subst hs1; exact ⟨h, rfl⟩)
  have h2 : fl2.refl = true ∧ (s2.flags = BxDFFlags.specularReflection ∨
      s2.flags = BxDFFlags.glossyReflection) := by
    simp only [conductorSampleF] at hs2
    split_ifs at hs2 with ha hb hc hd he
    all_goals (first
      | (simp at ha; injection hs2 with hs2; subst hs2;
         exact ⟨ha, Or.inl rfl⟩)
      | (simp at ha; injection hs2 with hs2; subst hs2;
         exact ⟨ha, Or.inr rfl⟩))
  refine ⟨h1.1, by rw [h1.2]; rfl, by rw [h1.2]; rfl, h2.1, ?_, ?_⟩
  · cases h2.2 with
    | inl h => rw [h]; rfl
    | inr h => rw [h]; rfl
  · cases h2.2 with
    | inl h => rw [h]; rfl
    | inr h => rw [h]; rfl

/-- Witness for the amended C4 with concrete lobes and inputs. -/
theorem c4_flags_honored_witness :
    diffuseSampleF (S4.const 1) (fun _ => ⟨0, 0, 1⟩) ⟨0, 0, 1⟩ 0 (0, 0)
        TransportMode.Radiance RTFlags.all
      = some ⟨(S4.const 1).scale invPi, ⟨0, 0, 1⟩,
          cosineHemispherePDF (absCosTheta ⟨0, 0, 1⟩),
          BxDFFlags.diffuseReflection, 1, false⟩ ∧
    conductorSampleF (MFDist.mk (fun _ => 1) (fun _ _ => 1)
        (fun _ _ => ⟨0, 0, 1⟩) (fun _ _ => 1) true) (fun _ => S4.const 1)
        ⟨0, 0, 1⟩ 0 (0, 0) TransportMode.Radiance RTFlags.all
      = some ⟨(S4.const 1).scale (1 / absCosTheta ⟨0, 0, 1⟩), ⟨0, 0, 1⟩, 1,
          BxDFFlags.specularReflection, 1, false⟩ ∧
    RTFlags.all.refl = true ∧
    BxDFFlags.diffuseReflection.trans = false ∧
    BxDFFlags.specularReflection.trans = false := by
  have hd : diffuseSampleF (S4.const 1) (fun _ => ⟨0, 0, 1⟩) ⟨0, 0, 1⟩ 0
      (0, 0) TransportMode.Radiance RTFlags.all
      = some ⟨(S4.const 1).scale invPi, ⟨0, 0, 1⟩,
          cosineHemispherePDF (absCosTheta ⟨0, 0, 1⟩),
          BxDFFlags.diffuseReflection, 1, false⟩ := by
    norm_num [diffuseSampleF, RTFlags.all]
  have hc : conductorSampleF (MFDist.mk (fun _ => 1) (fun _ _ => 1)
      (fun _ _ => ⟨0, 0, 1⟩) (fun _ _ => 1) true) (fun _ => S4.const 1)
      ⟨0, 0, 1⟩ 0 (0, 0) TransportMode.Radiance RTFlags.all
      = some ⟨(S4.const 1).scale (1 / absCosTheta ⟨0, 0, 1⟩), ⟨0, 0, 1⟩, 1,
          BxDFFlags.specularReflection, 1, false⟩ := by
    norm_num [conductorSampleF, absCosTheta, RTFlags.all]
  have h := c4_flags_honored (S4.const 1) (fun _ => ⟨0, 0, 1⟩)
    (MFDist.mk (fun _ => 1) (fun _ _ => 1) (fun _ _ => ⟨0, 0, 1⟩)
      (fun _ _ => 1) true) (fun _ => S4.const 1)
    ⟨0, 0, 1⟩ 0 (0, 0) TransportMode.Radiance RTFlags.all
    ⟨0, 0, 1⟩ 0 (0, 0) TransportMode.Radiance RTFlags.all _ _ hd hc
  exact ⟨hd, hc, h.1, h.2.2.1, h.2.2.2.2.2⟩

/-! ## Claim C5 -/

/-- The adjusted thin-dielectric reflectance stays inside the unit interval
and the transmittance is its complement. -/
theorem thinRT_bounds (eta : ℚ) (frD : ℚ → ℚ → ℚ) (wo : Vec3)
    (h0 : 0 ≤ frD (absCosTheta wo) eta)
    (h1 : frD (absCosTheta wo) eta ≤ 1) :
    0 ≤ (thinRT eta frD wo).1 ∧ (thinRT eta frD wo).1 ≤ 1 ∧
    (thinRT eta frD wo).2 = 1 - (thinRT eta frD wo).1 := by
  set R := frD (absCosTheta wo) eta with hR
  by_cases hc : R < 1
  · have hplus : (0 : ℚ) < 1 + R := by linarith
    have hden : (1 : ℚ) - R * R ≠ 0 := by nlinarith
    have hpair : thinRT eta frD wo
        = (R + sqr (1 - R) * R / (1 - sqr R),
           1 - (R + sqr (1 - R) * R / (1 - sqr R))) := by
      simp only [thinRT]
      rw [← hR, if_pos hc]
    have heq : R + sqr (1 - R) * R / (1 - sqr R) = 2 * R / (1 + R) := by
      unfold sqr
      field_simp
      ring
    rw [hpair]
    dsimp only
    refine ⟨?_, ?_, rfl⟩
    · rw [heq]
      exact div_nonneg (by linarith) (le_of_lt hplus)
    · rw [heq, div_le_one hplus]
      linarith
  · have hpair : thinRT eta frD wo = (R, 1 - R) := by
      simp only [thinRT]
      rw [← hR, if_neg hc]
    rw [hpair]
    exact ⟨h0, h1, rfl⟩

/-- C5 counterexample: NormalizedFresnelBxDF Sample_f, whose return type is a
plain BSDFSample, reaches the facade as a present sample carrying zero value
and zero density when Reflection is excluded; and ThinDielectricBxDF returns
a present sample with a degenerate direction (wi.z = 0) for a grazing `wo`
instead of the absent result the claim requires. -/
theorem c5_counterexample :
    (nfSampleFOpt (3 / 2) (fun _ _ => 0) (fun _ => 0) (fun _ => ⟨0, 0, 1⟩)
        ⟨0, 0, 1⟩ 0 (0, 0) TransportMode.Radiance RTFlags.transOnly).map
      (fun s => (s.f, s.pdf)) = some (S4.const 0, 0) ∧
    (thinSampleF (3 / 2) (fun _ _ => 0) ⟨1, 0, 0⟩ 0 (0, 0)
        TransportMode.Radiance RTFlags.all).map (fun s => s.wi.z)
      = some 0 ∧
    (thinSampleF (3 / 2) (fun _ _ => 0) ⟨1, 0, 0⟩ 0 (0, 0)
        TransportMode.Radiance RTFlags.all).isSome = true := by
  refine ⟨?_, ?_, ?_⟩
  · norm_num [nfSampleFOpt, nfSampleF, BSDFSample.zero, RTFlags.transOnly]
  · norm_num [thinSampleF, thinRT, RTFlags.all, absCosTheta, sqr]
  · norm_num [thinSampleF, thinRT, RTFlags.all, absCosTheta, sqr]

/-- C5 (amended): for the optional-returning ThinDielectricBxDF, Sample_f
returns the absent result whenever the restriction leaves no branch
probability mass, and every present sample carries a strictly positive
density (under the Fresnel contract 0 <= R <= 1 and a uniform draw in
[0,1)); ThinDielectric does not, however, reject degenerate directions, and
NormalizedFresnelBxDF Sample_f is never absent — when Reflection is excluded
it yields a present all-zero sample. -/
theorem thin_c5_absent_or_positive (eta : ℚ) (frD : ℚ → ℚ → ℚ) (wo : Vec3)
    (uc : ℚ) (u : ℚ × ℚ) (mode : TransportMode) (flags fl2 : RTFlags)
    (s : BSDFSample)
    (h0 : 0 ≤ frD (absCosTheta wo) eta) (h1 : frD (absCosTheta wo) eta ≤ 1)
    (hu0 : 0 ≤ uc) (hu1 : uc < 1)
    (hz : (if fl2.refl = true then (thinRT eta frD wo).1 else 0) = 0 ∧
          (if fl2.trans = true then (thinRT eta frD wo).2 else 0) = 0)
    (hs : thinSampleF eta frD wo uc u mode flags = some s) :
    thinSampleF eta frD wo uc u mode fl2 = none ∧ 0 < s.pdf := by
  obtain ⟨hb0, hb1, hb2⟩ := thinRT_bounds eta frD wo h0 h1
  constructor
  · simp only [thinSampleF]
    rw [if_pos hz]
  · simp only [thinSampleF] at hs
    set pr := (if flags.refl = true then (thinRT eta frD wo).1 else 0)
      with hpr
    set pt := (if flags.trans = true then (thinRT eta frD wo).2 else 0)
      with hpt
    have hpr0 : 0 ≤ pr := by
      rw [hpr]
      split_ifs
      · exact hb0
      · exact le_refl 0
    have hpt0 : 0 ≤ pt := by
      rw [hpt]
      split_ifs
      · rw [hb2]
        linarith
      · exact le_refl 0
    split_ifs at hs with hzz hcase
    · injection hs with hs
      subst hs
      exact lt_of_le_of_lt hu0 hcase
    · injection hs with hs
      subst hs
      have hsum : 0 < pr + pt := by
        rcases (add_nonneg hpr0 hpt0).lt_or_eq with h | h
        · exact h
        · exfalso
          apply hzz
          constructor
          · linarith
          · linarith
      have hfrac : pt / (pr + pt) = 1 - pr / (pr + pt) := by
        field_simp
      have hle : pr / (pr + pt) ≤ uc := not_lt.mp hcase
      show 0 < pt / (pr + pt)
      rw [hfrac]
      linarith

/-- Witness for the amended C5 with the exact reflectance 1/25 at normal
incidence and a fully masked request. -/
theorem thin_c5_absent_or_positive_witness :
    ((0 : ℚ) ≤ (fun _ _ : ℚ => (1 : ℚ) / 25) (absCosTheta ⟨0, 0, 1⟩) (3 / 2) ∧
      (fun _ _ : ℚ => (1 : ℚ) / 25) (absCosTheta ⟨0, 0, 1⟩) (3 / 2) ≤ 1 ∧
      (0 : ℚ) ≤ 1 / 2 ∧ (1 : ℚ) / 2 < 1) ∧
    thinSampleF (3 / 2) (fun _ _ => 1 / 25) ⟨0, 0, 1⟩ (1 / 2) (0, 0)
      TransportMode.Radiance ⟨false, false⟩ = none ∧
    (0 : ℚ) <
      (Option.getD ((thinSampleF (3 / 2) (fun _ _ => 1 / 25) ⟨0, 0, 1⟩ (1 / 2)
        (0, 0) TransportMode.Radiance RTFlags.all).map BSDFSample.pdf) 0) := by
  have hsome : thinSampleF (3 / 2) (fun _ _ => 1 / 25) ⟨0, 0, 1⟩ (1 / 2)
      (0, 0) TransportMode.Radiance RTFlags.all
      = some ⟨S4.const ((thinRT (3 / 2) (fun _ _ => 1 / 25) ⟨0, 0, 1⟩).2 /
          absCosTheta (-(⟨0, 0, 1⟩ : Vec3))), -(⟨0, 0, 1⟩ : Vec3),
          (thinRT (3 / 2) (fun _ _ => 1 / 25) ⟨0, 0, 1⟩).2 /
            ((thinRT (3 / 2) (fun _ _ => 1 / 25) ⟨0, 0, 1⟩).1 +
              (thinRT (3 / 2) (fun _ _ => 1 / 25) ⟨0, 0, 1⟩).2),
          BxDFFlags.specularTransmission, 1, false⟩ := by
    norm_num [thinSampleF, thinRT, RTFlags.all, absCosTheta, sqr]
  have h := thin_c5_absent_or_positive (3 / 2) (fun _ _ => 1 / 25) ⟨0, 0, 1⟩
    (1 / 2) (0, 0) TransportMode.Radiance RTFlags.all ⟨false, false⟩ _
    (by norm_num [absCosTheta]) (by norm_num [absCosTheta])
    (by norm_num) (by norm_num)
    (by norm_num) hsome
  refine ⟨⟨by norm_num [absCosTheta], by norm_num [absCosTheta],
    by norm_num, by norm_num⟩, h.1, ?_⟩
  rw [hsome]
  exact h.2

/-! ## Claim C6 -/

/-- C6 counterexample: Sample/PDF consistency fails outside the non-specular,
non-degenerate regime.  An effectively smooth ConductorBxDF sample carries
density one with a false proportional flag, yet ConductorBxDF PDF returns
zero for a smooth distribution; and a grazing `wo` on DiffuseBxDF yields a
present sample of density `1/pi` while PDF returns zero because the
hemisphere test fails at `wo.z = 0`. -/
theorem c6_counterexample :
    ((conductorSampleF c6mfSmooth (fun _ => S4.const 1) ⟨0, 0, 1⟩ 0 (0, 0)
        TransportMode.Radiance RTFlags.all).map
        (fun s => (s.wi, s.pdf, s.pdfIsProportional))
      = some (⟨0, 0, 1⟩, 1, false)) ∧
    conductorPDF c6mfSmooth (fun q => q) ⟨0, 0, 1⟩ ⟨0, 0, 1⟩
      TransportMode.Radiance RTFlags.all = 0 ∧
    (1 : ℚ) ≠ 0 ∧
    ((diffuseSampleF (S4.const 1) (fun _ => ⟨0, 0, 1⟩) ⟨1, 0, 0⟩ 0 (0, 0)
        TransportMode.Radiance RTFlags.all).map
        (fun s => (s.pdf, s.pdfIsProportional))
      = some (invPi, false)) ∧
    diffusePDF (S4.const 1) ⟨1, 0, 0⟩ ⟨0, 0, 1⟩ TransportMode.Radiance
      RTFlags.all = 0 ∧
    invPi ≠ 0 := by
  refine ⟨?_, ?_, by norm_num, ?_, ?_, by norm_num [invPi]⟩
  · norm_num [conductorSampleF, c6mfSmooth, RTFlags.all, absCosTheta]
  · norm_num [conductorPDF, c6mfSmooth, RTFlags.all, sameHemisphere]
  · norm_num [diffuseSampleF, RTFlags.all, cosineHemispherePDF, absCosTheta]
  · norm_num [diffusePDF, RTFlags.all, sameHemisphere]

/-- C6 (amended): Sample/PDF consistency holds for the non-specular lobes
away from the degenerate configurations — for DiffuseBxDF whenever `wo` is
not grazing and the cosine sampler returns an upper-hemisphere direction,
and for a rough ConductorBxDF whenever the visible-normal sampler returns a
unit upward normal and the external square root is exact on the squared
length of `wo + wi` — but not for specular samples (smooth conductor,
ThinDielectric) or grazing `wo`, where the sample's density differs from
PDF. -/
theorem c6_sample_pdf_consistency (R : S4) (cosSampler : ℚ × ℚ → Vec3)
    (mf : MFDist) (frC : ℚ → S4) (sq : ℚ → ℚ)
    (wo1 : Vec3) (uc1 : ℚ) (u1 : ℚ × ℚ) (mode1 : TransportMode)
    (fl1 : RTFlags) (s1 : BSDFSample)
    (wo2 : Vec3) (uc2 : ℚ) (u2 : ℚ × ℚ) (mode2 : TransportMode)
    (fl2 : RTFlags) (s2 : BSDFSample)
    (hwoz : wo1.z ≠ 0) (hcs : 0 ≤ (cosSampler u1).z)
    (hwm1 : dot (mf.sample_wm wo2 u2) (mf.sample_wm wo2 u2) = 1)
    (hwm2 : 0 < (mf.sample_wm wo2 u2).z)
    (hsq : sq (dot (wo2 + reflect wo2 (mf.sample_wm wo2 u2))
        (wo2 + reflect wo2 (mf.sample_wm wo2 u2)))
      = 2 * |dot wo2 (mf.sample_wm wo2 u2)|)
    (hs1 : diffuseSampleF R cosSampler wo1 uc1 u1 mode1 fl1 = some s1)
    (hs2 : conductorSampleF mf frC wo2 uc2 u2 mode2 fl2 = some s2)
    (hns : s2.flags.specular = false) :
    s1.pdfIsProportional = false ∧
    diffusePDF R wo1 s1.wi mode1 fl1 = s1.pdf ∧
    s2.pdfIsProportional = false ∧
    conductorPDF mf sq wo2 s2.wi mode2 fl2 = s2.pdf := by
  have hchar1 : s1.pdfIsProportional = false ∧
      diffusePDF R wo1 s1.wi mode1 fl1 = s1.pdf := by
    simp only [diffuseSampleF] at hs1
    by_cases hrf : (!fl1.refl) = true
    · rw [if_pos hrf] at hs1
      exact Option.noConfusion hs1
    rw [if_neg hrf] at hs1
    by_cases hz : wo1.z < 0
    · rw [if_pos hz] at hs1
      injection hs1 with hs1
      subst hs1
      refine ⟨rfl, ?_⟩
      by_cases hcz : (cosSampler u1).z = 0
      · have hns2 : ¬ sameHemisphere wo1
            ⟨(cosSampler u1).x, (cosSampler u1).y, -(cosSampler u1).z⟩ := by
          show ¬ (0 < wo1.z * -(cosSampler u1).z)
          rw [hcz]
          norm_num
        simp only [diffusePDF]
        rw [if_pos (Or.inr hns2)]
        simp [cosineHemispherePDF, absCosTheta, hcz]
      · have hpos : 0 < (cosSampler u1).z := lt_of_le_of_ne hcs (Ne.symm hcz)
        have hsh : sameHemisphere wo1
            ⟨(cosSampler u1).x, (cosSampler u1).y, -(cosSampler u1).z⟩ := by
          show 0 < wo1.z * -(cosSampler u1).z
          nlinarith [mul_pos (neg_pos.mpr hz) hpos]
        simp only [diffusePDF]
        rw [if_neg (fun hor => hor.elim hrf (fun h2 => h2 hsh))]
    · rw [if_neg hz] at hs1
      injection hs1 with hs1
      subst hs1
      refine ⟨rfl, ?_⟩
      by_cases hcz : (cosSampler u1).z = 0
      · have hns2 : ¬ sameHemisphere wo1 (cosSampler u1) := by
          show ¬ (0 < wo1.z * (cosSampler u1).z)
          rw [hcz]
          norm_num
        simp only [diffusePDF]
        rw [if_pos (Or.inr hns2)]
        simp [cosineHemispherePDF, absCosTheta, hcz]
      · have hpos : 0 < (cosSampler u1).z := lt_of_le_of_ne hcs (Ne.symm hcz)
        have hwpos : 0 < wo1.z :=
          lt_of_le_of_ne (not_lt.mp hz) (Ne.symm hwoz)
        have hsh : sameHemisphere wo1 (cosSampler u1) := by
          show 0 < wo1.z * (cosSampler u1).z
          exact mul_pos hwpos hpos
        simp only [diffusePDF]
        rw [if_neg (fun hor => hor.elim hrf (fun h2 => h2 hsh))]
  have hchar2 : s2.pdfIsProportional = false ∧
      conductorPDF mf sq wo2 s2.wi mode2 fl2 = s2.pdf := by
    simp only [conductorSampleF] at hs2
    by_cases ha : (!fl2.refl) = true
    · rw [if_pos ha] at hs2
      exact Option.noConfusion hs2
    rw [if_neg ha] at hs2
    by_cases hb : mf.effectivelySmooth = true
    · rw [if_pos hb] at hs2
      injection hs2 with hs2
      subst hs2
      exact Bool.noConfusion hns
    rw [if_neg hb] at hs2
    by_cases hc : wo2.z = 0
    · rw [if_pos hc] at hs2
      exact Option.noConfusion hs2
    rw [if_neg hc] at hs2
    by_cases hd0 : ¬ sameHemisphere wo2 (reflect wo2 (mf.sample_wm wo2 u2))
    · rw [if_pos hd0] at hs2
      exact Option.noConfusion hs2
    rw [if_neg hd0] at hs2
    by_cases he : absCosTheta (reflect wo2 (mf.sample_wm wo2 u2)) = 0 ∨
        absCosTheta wo2 = 0
    · rw [if_pos he] at hs2
      exact Option.noConfusion hs2
    rw [if_neg he] at hs2
    injection hs2 with hs2
    subst hs2
    refine ⟨rfl, ?_⟩
    have hd : ¬ ¬ sameHemisphere wo2 (reflect wo2 (mf.sample_wm wo2 u2)) := hd0
    set wm := mf.sample_wm wo2 u2 with hwm
    have hsame : sameHemisphere wo2 (reflect wo2 wm) := not_not.mp hd
    have hdne : dot wo2 wm ≠ 0 := by
      intro h0
      have hz2 : (reflect wo2 wm).z = -wo2.z := by
        simp [reflect, h0]
      have hlt : 0 < wo2.z * (reflect wo2 wm).z := hsame
      rw [hz2] at hlt
      nlinarith [sq_nonneg wo2.z]
    have hsum : wo2 + reflect wo2 wm = wm.scale (2 * dot wo2 wm) :=
      reflect_decomp wo2 wm
    have hdd : dot (wo2 + reflect wo2 wm) (wo2 + reflect wo2 wm)
        = (2 * dot wo2 wm) * (2 * dot wo2 wm) := by
      rw [hsum, dot_scale_self, hwm1]
      ring
    have hddne : dot (wo2 + reflect wo2 wm) (wo2 + reflect wo2 wm) ≠ 0 := by
      rw [hdd]
      exact mul_ne_zero (mul_ne_zero two_ne_zero hdne)
        (mul_ne_zero two_ne_zero hdne)
    have hnorm : normalize sq (wo2 + reflect wo2 wm)
        = (wm.scale (2 * dot wo2 wm)).scale
            (1 / (2 * |dot wo2 wm|)) := by
      unfold normalize
      rw [hsq, hsum]
    have hface : faceForward (normalize sq (wo2 + reflect wo2 wm))
        ⟨0, 0, 1⟩ = wm := by
      rw [hnorm]
      rcases hdne.lt_or_lt with hneg | hpos
      · have habs2 : |dot wo2 wm| = -(dot wo2 wm) := abs_of_neg hneg
        have hmm : (wm.scale (2 * dot wo2 wm)).scale
            (1 / (2 * |dot wo2 wm|)) = wm.scale (-1) := by
          rw [Vec3.scale_scale, habs2]
          congr 1
          field_simp
        rw [hmm, Vec3.scale_neg_one]
        have hdw : dot (-wm) ⟨0, 0, 1⟩ < 0 := by
          show (-wm).x * 0 + (-wm).y * 0 + (-wm).z * 1 < 0
          simp
          exact hwm2
        unfold faceForward
        rw [if_pos hdw]
        exact Vec3.neg_neg wm
      · have habs2 : |dot wo2 wm| = dot wo2 wm := abs_of_pos hpos
        have hmm : (wm.scale (2 * dot wo2 wm)).scale
            (1 / (2 * |dot wo2 wm|)) = wm.scale 1 := by
          rw [Vec3.scale_scale, habs2]
          congr 1
          field_simp
        rw [hmm, Vec3.scale_one]
        have hdw : ¬ (dot wm ⟨0, 0, 1⟩ < 0) := by
          show ¬ (wm.x * 0 + wm.y * 0 + wm.z * 1 < 0)
          simp
          linarith
        unfold faceForward
        rw [if_neg hdw]
    simp only [conductorPDF]
    rw [if_neg ha, if_neg hd, if_neg hb, if_neg hddne, hface]
  exact ⟨hchar1.1, hchar1.2, hchar2.1, hchar2.2⟩

/-- Witness for the amended C6 at an upward `wo`, a fixed upward cosine
sample, and the concrete rough distribution with an exact halving square
root. -/
theorem c6_sample_pdf_consistency_witness :
    ((⟨0, 0, 1⟩ : Vec3).z ≠ 0 ∧
      (0 : ℚ) ≤ ((fun _ : ℚ × ℚ => (⟨0, 0, 1⟩ : Vec3)) ((0 : ℚ), (0 : ℚ))).z ∧
      dot (c6mfRough.sample_wm ⟨0, 0, 1⟩ (0, 0))
        (c6mfRough.sample_wm ⟨0, 0, 1⟩ (0, 0)) = 1 ∧
      0 < (c6mfRough.sample_wm ⟨0, 0, 1⟩ (0, 0)).z) ∧
    diffusePDF (S4.const 1) ⟨0, 0, 1⟩ ⟨0, 0, 1⟩ TransportMode.Radiance
      RTFlags.all = cosineHemispherePDF (absCosTheta ⟨0, 0, 1⟩) ∧
    conductorPDF c6mfRough (fun q => q / 2) ⟨0, 0, 1⟩
      (reflect ⟨0, 0, 1⟩ ⟨0, 0, 1⟩) TransportMode.Radiance RTFlags.all
      = 1 / (4 * absDot ⟨0, 0, 1⟩ ⟨0, 0, 1⟩) := by
  have hd1 : diffuseSampleF (S4.const 1) (fun _ => ⟨0, 0, 1⟩) ⟨0, 0, 1⟩ 0
      (0, 0) TransportMode.Radiance RTFlags.all
      = some ⟨(S4.const 1).scale invPi, ⟨0, 0, 1⟩,
          cosineHemispherePDF (absCosTheta ⟨0, 0, 1⟩),
          BxDFFlags.diffuseReflection, 1, false⟩ := by
    norm_num [diffuseSampleF, RTFlags.all]
  have hc2 : conductorSampleF c6mfRough (fun _ => S4.const 1) ⟨0, 0, 1⟩ 0
      (0, 0) TransportMode.Radiance RTFlags.all
      = some ⟨((S4.const 1).scale 1).scale (1 / 4),
          reflect ⟨0, 0, 1⟩ ⟨0, 0, 1⟩, 1 / (4 * absDot ⟨0, 0, 1⟩ ⟨0, 0, 1⟩),
          BxDFFlags.glossyReflection, 1, false⟩ := by
    norm_num [conductorSampleF, c6mfRough, RTFlags.all, sameHemisphere,
      reflect, dot, absDot, absCosTheta, Vec3.scale]
  have h := c6_sample_pdf_consistency (S4.const 1) (fun _ => ⟨0, 0, 1⟩)
    c6mfRough (fun _ => S4.const 1) (fun q => q / 2) ⟨0, 0, 1⟩ 0 (0, 0)
    TransportMode.Radiance RTFlags.all _ ⟨0, 0, 1⟩ 0 (0, 0)
    TransportMode.Radiance RTFlags.all _
    (by norm_num) (by norm_num)
    (by norm_num [c6mfRough, dot]) (by norm_num [c6mfRough])
    (by norm_num [c6mfRough, reflect, dot, Vec3.scale])
    hd1 hc2 (by norm_num [BxDFFlags.glossyReflection])
  exact ⟨⟨by norm_num, by norm_num, by norm_num [c6mfRough, dot],
    by norm_num [c6mfRough]⟩, h.2.1, h.2.2.2⟩

/-! ## Claim C9 -/

/-- The three shares computed by DisneyBxDF ComputeWeights sum to one
whenever metallic is at most one and clearcoat is nonnegative. -/
theorem computeWeights_sum (m c : ℚ) (hm : m ≤ 1) (hc : 0 ≤ c) :
    (computeWeights m c).1 + (computeWeights m c).2.1
      + (computeWeights m c).2.2 = 1 := by
  simp only [computeWeights]
  have hne : (m + (1 - m)) + (1 - m) + c ≠ 0 := by
    intro h
    linarith
  field_simp
  exact div_self (by intro h; linarith)

/-- BRDF_PDF at an already upper-hemisphere `wo` is exactly the weighted sum
of the three branch densities. -/
theorem brdfPDF_decomp (P : DisneyParams) (O : MathOracle) (wo wi : Vec3)
    (h : ¬ wo.z < 0) :
    brdfPDF P O wo wi
      = disneyPdfSpecular P O wo wi
          * (computeWeights P.metallic P.clearcoat).1
        + disneyPdfDiffuse P O wo wi
          * (computeWeights P.metallic P.clearcoat).2.1
        + disneyPdfClearcoat P O wo wi
          * (computeWeights P.metallic P.clearcoat).2.2 := by
  simp only [brdfPDF, disneyPdfSpecular, disneyPdfDiffuse, disneyPdfClearcoat]
  rw [if_neg h]

/-- BRDF_PDF flips both directions when `wo` lies below the horizon, so it
can be evaluated on the flipped pair instead. -/
theorem brdfPDF_flip (P : DisneyParams) (O : MathOracle) (wo0 wi0 : Vec3)
    (h : wo0.z < 0) :
    brdfPDF P O wo0 wi0 = brdfPDF P O (-wo0) (-wi0) := by
  have h2 : ¬ ((-wo0).z < 0) := by
    simp only [Vec3.neg_z]
    linarith
  simp only [brdfPDF]
  rw [if_pos h, if_neg h2]

/-- Every sample produced by DisneyBxDF Sample_f carries BRDF_F as its value
and BRDF_PDF at the sampled direction as its density, both evaluated on the
flipped pair, with eta one and a false proportional flag. -/
theorem disney_sample_shape (P : DisneyParams) (O : MathOracle) (wo0 : Vec3)
    (uc : ℚ) (u : ℚ × ℚ) (mode : TransportMode) (flags : RTFlags) (rv : ℚ)
    (s : BSDFSample)
    (hs : disneySampleF P O wo0 uc u mode flags rv = some s) :
    ∃ wi flag,
      s = ⟨brdfF P O (if wo0.z < 0 then -wo0 else wo0) wi,
           if wo0.z < 0 then -wi else wi,
           brdfPDF P O (if wo0.z < 0 then -wo0 else wo0) wi,
           flag, 1, false⟩ := by
  simp only [disneySampleF] at hs
  split_ifs at hs ⊢
  all_goals
    first
      | exact Option.noConfusion hs
      | exact ⟨_, _, (Option.some.inj hs).symm⟩

/-- C9: whenever DisneyBxDF Sample_f returns a sample (and metallic is at
most one with nonnegative clearcoat), the ComputeWeights shares sum to one,
the sample's density is the full weighted sum of the specular, diffuse and
clear-coat branch densities at the sampled direction — not just the chosen
branch's density — and it equals PDF at the sampled direction. -/
theorem disney_c9_pdf_full_sum (P : DisneyParams) (O : MathOracle)
    (wo0 : Vec3) (uc : ℚ) (u : ℚ × ℚ) (mode : TransportMode)
    (flags : RTFlags) (rv : ℚ) (s : BSDFSample)
    (hm : P.metallic ≤ 1) (hc : 0 ≤ P.clearcoat)
    (hs : disneySampleF P O wo0 uc u mode flags rv = some s) :
    (computeWeights P.metallic P.clearcoat).1
      + (computeWeights P.metallic P.clearcoat).2.1
      + (computeWeights P.metallic P.clearcoat).2.2 = 1 ∧
    s.pdf
      = disneyPdfSpecular P O (if wo0.z < 0 then -wo0 else wo0)
          (if wo0.z < 0 then -s.wi else s.wi)
          * (computeWeights P.metallic P.clearcoat).1
        + disneyPdfDiffuse P O (if wo0.z < 0 then -wo0 else wo0)
          (if wo0.z < 0 then -s.wi else s.wi)
          * (computeWeights P.metallic P.clearcoat).2.1
        + disneyPdfClearcoat P O (if wo0.z < 0 then -wo0 else wo0)
          (if wo0.z < 0 then -s.wi else s.wi)
          * (computeWeights P.metallic P.clearcoat).2.2 ∧
    disneyPDF P O wo0 s.wi mode flags = s.pdf := by
  obtain ⟨wi, flag, hsv⟩ :=
    disney_sample_shape P O wo0 uc u mode flags rv s hs
  subst hsv
  refine ⟨computeWeights_sum P.metallic P.clearcoat hm hc, ?_, ?_⟩
  · by_cases hflip : wo0.z < 0
    · simp only [if_pos hflip, Vec3.neg_neg]
      have h2 : ¬ ((-wo0).z < 0) := by
        simp only [Vec3.neg_z]
        linarith
      exact brdfPDF_decomp P O (-wo0) wi h2
    · simp only [if_neg hflip]
      exact brdfPDF_decomp P O wo0 wi hflip
  · by_cases hflip : wo0.z < 0
    · simp only [disneyPDF, if_pos hflip]
      rw [brdfPDF_flip P O wo0 (-wi) hflip, Vec3.neg_neg]
    · simp only [disneyPDF, if_neg hflip]

/-- Witness for C9 with the concrete material and collaborators: the diffuse
branch fires at `uc = 9/10`, no flip is needed, and the sample density is
PDF at the returned direction. -/
theorem disney_c9_pdf_full_sum_witness :
    (discP9.metallic ≤ 1 ∧ (0 : ℚ) ≤ discP9.clearcoat) ∧
    (computeWeights discP9.metallic discP9.clearcoat).1
      + (computeWeights discP9.metallic discP9.clearcoat).2.1
      + (computeWeights discP9.metallic discP9.clearcoat).2.2 = 1 ∧
    disneyPDF discP9 discO9 ⟨0, 0, 1⟩ ⟨0, 0, 1⟩ TransportMode.Radiance
        RTFlags.all
      = brdfPDF discP9 discO9 ⟨0, 0, 1⟩ ⟨0, 0, 1⟩ := by
  have hsome : disneySampleF discP9 discO9 ⟨0, 0, 1⟩ (9 / 10) (0, 0)
      TransportMode.Radiance RTFlags.all 1
      = some ⟨brdfF discP9 discO9 ⟨0, 0, 1⟩ ⟨0, 0, 1⟩, ⟨0, 0, 1⟩,
          brdfPDF discP9 discO9 ⟨0, 0, 1⟩ ⟨0, 0, 1⟩,
          BxDFFlags.diffuseReflection, 1, false⟩ := by
    norm_num [disneySampleF, computeWeights, discP9, discO9]
  have h := disney_c9_pdf_full_sum discP9 discO9 ⟨0, 0, 1⟩ (9 / 10) (0, 0)
    TransportMode.Radiance RTFlags.all 1 _
    (by norm_num [discP9]) (by norm_num [discP9]) hsome
  exact ⟨⟨by norm_num [discP9], by norm_num [discP9]⟩, h.1, h.2.2⟩

end PbrtBxdfs
